import Mathlib

/-!
Shallow embedding of the core of the `obsidian-knowledge-gap-detector`
plugin, together with theorems settling the specification claims.

Conventions of the embedding:

* JavaScript numbers are modelled by the exact rationals.  `Math.sqrt` is
  an external floating-point primitive, so every definition that computes
  a Euclidean distance is parametrised by an abstract square-root
  function `sq : Rat → Rat`; theorems either hold uniformly in `sq` or
  state the properties of `sq` they use.  A concrete model `ratSqrt`
  (exact on perfect-square rationals) instantiates `sq` in witnesses.
* `Math.random` is an external entropy source; it is modelled by a
  stream `rng : Nat → Rat`, reading `rng t` at the t-th call.
* JavaScript `Map` and `Set` preserve insertion order; they are modelled
  by association lists that update in place and append fresh keys.
* `Array.prototype.sort` is a stable comparison sort; it is modelled by
  `List.mergeSort` on the `"comparator result not positive"` relation.
* Functions that `throw` are modelled with `Except`; internal helpers
  whose callers guarantee the exceptional case cannot occur use total
  variants returning junk defaults, which agree with the source whenever
  all vectors involved share one dimension (the documented corpus
  precondition).
-/

namespace KnowledgeGapDetector

/-! ### Generic helpers -/

/-- Insertion-ordered map update: replaces the value of an existing key in
place, appends a fresh key at the end (JavaScript `Map.set`). -/
def mapSet {α β : Type} [BEq α] (m : List (α × β)) (k : α) (v : β) : List (α × β) :=
  match m with
  | [] => [(k, v)]
  | (k', v') :: rest =>
    if k' == k then (k', v) :: rest else (k', v') :: mapSet rest k v

/-- Linear-search square root on naturals, exact on perfect squares
(largest `k ≤ n` with `k * k ≤ n`). Used only to build the concrete
square-root model for witnesses. -/
def natSqrtLin (n : Nat) : Nat :=
  ((List.range (n + 1)).filter (fun k => k * k ≤ n)).getLastD 0

/-- A concrete computable stand-in for `Math.sqrt`: exact on rationals
whose numerator and denominator are perfect squares, junk elsewhere.
Only ever applied to perfect squares in witnesses. -/
def ratSqrt (q : Rat) : Rat :=
  (natSqrtLin q.num.toNat : Rat) / (natSqrtLin q.den : Rat)

/-- The all-zero random stream, a valid `Math.random` model (every value
in `[0, 1)`). -/
def rngZero : Nat → Rat := fun _ => 0

/-! ### `src/core/domain/utils/vector-math.ts` -/

/-- Error conditions of the vector-math component: the explicit
length-mismatch throw, and the explicit empty-centroid throw. -/
inductive VMError : Type where
  | dimensionMismatch : Nat → Nat → VMError
  | emptyCentroid : VMError
deriving DecidableEq, Repr

/-- `cosineSimilarity`: dot product over the product of norms, `0` when the
denominator vanishes; throws on length mismatch. -/
def cosineSimilarity (sq : Rat → Rat) (a b : List Rat) : Except VMError Rat :=
  if a.length ≠ b.length then
    .error (.dimensionMismatch a.length b.length)
  else
    let dotProduct := ((a.zip b).map (fun p => p.1 * p.2)).sum
    let normA := (a.map (fun x => x * x)).sum
    let normB := (b.map (fun x => x * x)).sum
    let denominator := sq normA * sq normB
    if denominator = 0 then .ok 0 else .ok (dotProduct / denominator)

/-- `euclideanDistance`: square root of the sum of squared coordinate
differences; throws on length mismatch. -/
def euclideanDistance (sq : Rat → Rat) (a b : List Rat) : Except VMError Rat :=
  if a.length ≠ b.length then
    .error (.dimensionMismatch a.length b.length)
  else
    .ok (sq (((a.zip b).map (fun p => (p.1 - p.2) * (p.1 - p.2))).sum))

/-- `cosineDistance`: `1 - cosineSimilarity`, propagating its error. -/
def cosineDistance (sq : Rat → Rat) (a b : List Rat) : Except VMError Rat :=
  (cosineSimilarity sq a b).map (fun s => 1 - s)

/-- `calculateCentroid`: element-wise mean; throws on the empty list. -/
def calculateCentroid (vectors : List (List Rat)) : Except VMError (List Rat) :=
  match vectors with
  | [] => .error .emptyCentroid
  | v₀ :: _ =>
    let dimensions := v₀.length
    .ok ((List.range dimensions).map (fun i =>
      (vectors.map (fun v => v.getD i 0)).sum / (vectors.length : Rat)))

/-- `normalizeVector`: scales to unit length, identity on the zero vector.
Total (no error condition in the source). -/
def normalizeVector (sq : Rat → Rat) (vector : List Rat) : List Rat :=
  let norm := sq ((vector.map (fun v => v * v)).sum)
  if norm = 0 then vector else vector.map (fun v => v / norm)

/-- `addVectors`: element-wise sum; throws on length mismatch. -/
def addVectors (a b : List Rat) : Except VMError (List Rat) :=
  if a.length ≠ b.length then
    .error (.dimensionMismatch a.length b.length)
  else
    .ok ((a.zip b).map (fun p => p.1 + p.2))

/-- `subtractVectors`: element-wise difference; throws on length mismatch. -/
def subtractVectors (a b : List Rat) : Except VMError (List Rat) :=
  if a.length ≠ b.length then
    .error (.dimensionMismatch a.length b.length)
  else
    .ok ((a.zip b).map (fun p => p.1 - p.2))

/-- `scaleVector`: scalar multiple. Total (no error condition). -/
def scaleVector (vector : List Rat) (scalar : Rat) : List Rat :=
  vector.map (fun v => v * scalar)

/-- Exception-propagating map: the JavaScript `Array.map` whose callback
may throw aborts at the first throwing element. -/
def mapExcept {α β : Type} (f : α → Except VMError β) : List α → Except VMError (List β)
  | [] => .ok []
  | x :: xs =>
    match f x with
    | .error e => .error e
    | .ok y => (mapExcept f xs).map (fun ys => y :: ys)

/-- `calculateVariance` (vector-math module): variance of the distances to
a centroid under a pluggable distance function (default Euclidean),
propagating any distance error; `0` on the empty list. -/
def vmCalculateVariance (distanceFunc : List Rat → List Rat → Except VMError Rat)
    (vectors : List (List Rat)) (centroid : List Rat) : Except VMError Rat :=
  if vectors.length = 0 then .ok 0
  else
    (mapExcept (fun v => distanceFunc v centroid) vectors).map (fun distances =>
      let mean := distances.sum / (distances.length : Rat)
      let squaredDiffs := distances.map (fun d => (d - mean) ^ 2)
      squaredDiffs.sum / (distances.length : Rat))

/-- Total Euclidean distance: the value `euclideanDistance` returns when
the lengths agree, junk (distance over the zipped common prefix) when the
source would throw. Used by the clustering and detection code, whose
corpus precondition is a uniform dimension. -/
def euclidT (sq : Rat → Rat) (a b : List Rat) : Rat :=
  sq (((a.zip b).map (fun p => (p.1 - p.2) * (p.1 - p.2))).sum)

/-- Total centroid: the value `calculateCentroid` returns on a nonempty
list, `[]` when the source would throw. -/
def centroidT (vectors : List (List Rat)) : List Rat :=
  match calculateCentroid vectors with
  | .ok c => c
  | .error _ => []

/-! ### `KMeansClusteringService` (adapters/clustering) -/

/-- `Cluster` (clustering-service interface): id, centroid, member ids,
intra-cluster variance. -/
structure Cluster : Type where
  id : String
  centroid : List Rat
  members : List String
  variance : Rat
deriving DecidableEq, Repr

/-- `ClusterResult`: non-empty clusters, id-to-cluster assignment map,
iteration count (absent for the degenerate and DBSCAN paths). -/
structure ClusterResult : Type where
  clusters : List Cluster
  assignments : List (String × String)
  iterations : Option Nat
deriving DecidableEq, Repr

/-- `KMeansOptions` with the optional fields the source defaults. -/
structure KMeansOptions : Type where
  k : Nat
  maxIterations : Option Nat
  tolerance : Option Rat
  useKMeansPlusPlus : Option Bool
deriving DecidableEq, Repr

/-- Minimum of a list of rationals (`Math.min(...)` over a nonempty spread;
`0` is junk for the empty case, which the source never hits because the
centroid list always holds the first pick). -/
def listMinD (l : List Rat) : Rat :=
  match l with
  | [] => 0
  | x :: xs => xs.foldl min x

/-- Roulette-wheel pick of `kMeansPlusPlusInit`: walks the squared
distances subtracting from `random`, returning the first index where the
remainder drops to `≤ 0`; `none` when the loop exhausts without firing
(then the source pushes no centroid in that round). -/
def kppPick (weights : List Rat) (random : Rat) : Option Nat :=
  match weights with
  | [] => none
  | w :: ws =>
    if random - w ≤ 0 then some 0
    else (kppPick ws (random - w)).map (fun j => j + 1)

/-- One round of `kMeansPlusPlusInit` for centroid index `i`: squared
distance of every point to its nearest chosen centroid, then a
roulette-wheel pick weighted by those squares. -/
def kppRound (sq : Rat → Rat) (rng : Nat → Rat) (points : List (List Rat))
    (centroids : List (List Rat)) (i : Nat) : List (List Rat) :=
  let distances := points.map (fun point =>
    let minDist := listMinD (centroids.map (fun c => euclidT sq point c))
    minDist * minDist)
  let totalDistance := distances.sum
  let random := rng i * totalDistance
  match kppPick distances random with
  | some j => centroids ++ [points.getD j []]
  | none => centroids

/-- `kMeansPlusPlusInit`: first centroid at `Math.floor(Math.random() * n)`,
each further centroid sampled proportionally to the squared distance to
the nearest chosen centroid. Call `t` of `Math.random` reads `rng t`. -/
def kMeansPlusPlusInit (sq : Rat → Rat) (rng : Nat → Rat)
    (points : List (List Rat)) (k : Nat) : List (List Rat) :=
  let n := points.length
  let firstIdx := (⌊rng 0 * (n : Rat)⌋).toNat
  (List.range' 1 (k - 1)).foldl (fun centroids i => kppRound sq rng points centroids i)
    [points.getD firstIdx []]

/-- Tail of `findNearestCentroid`: scans the remaining centroids keeping
the strictly smaller distance (ties keep the lower index). -/
def findNearestCentroidGo (sq : Rat → Rat) (point : List Rat) :
    List (List Rat) → Nat → Rat → Nat → Nat
  | [], _, _, nearest => nearest
  | c :: cs, i, minDist, nearest =>
    let dist := euclidT sq point c
    if dist < minDist then findNearestCentroidGo sq point cs (i + 1) dist i
    else findNearestCentroidGo sq point cs (i + 1) minDist nearest

/-- `findNearestCentroid`: index of the nearest centroid, Euclidean, ties
to the lowest index (the initial `Infinity` bound means the head always
becomes the first candidate). `0` on an empty centroid list. -/
def findNearestCentroid (sq : Rat → Rat) (point : List Rat)
    (centroids : List (List Rat)) : Nat :=
  match centroids with
  | [] => 0
  | c :: cs => findNearestCentroidGo sq point cs 1 (euclidT sq point c) 0

/-- `updateCentroids`: per cluster, the mean of the points assigned to it;
an emptied cluster collapses to the zero vector of the ambient dimension. -/
def updateCentroids (points : List (List Rat)) (assignments : List Nat)
    (k : Nat) : List (List Rat) :=
  let dimensions := (points.headD []).length
  (List.range k).map (fun i =>
    let clusterPoints := ((points.zip assignments).filter (fun pa => pa.2 == i)).map Prod.fst
    if clusterPoints.length > 0 then centroidT clusterPoints
    else List.replicate dimensions 0)

/-- `maxCentroidMovement`: largest pairwise distance between old and new
centroid lists. -/
def maxCentroidMovement (sq : Rat → Rat) (old updated : List (List Rat)) : Rat :=
  ((old.zip updated).map (fun p => euclidT sq p.1 p.2)).foldl
    (fun maxMove move => if move > maxMove then move else maxMove) 0

/-- `calculateVariance` (service-private): mean squared distance to the
centroid; `0` on the empty list. -/
def svcCalculateVariance (sq : Rat → Rat) (points : List (List Rat))
    (centroid : List Rat) : Rat :=
  if points.length = 0 then 0
  else
    (points.map (fun point =>
      let dist := euclidT sq point centroid
      dist * dist)).sum / (points.length : Rat)

/-- The `while` loop of `kMeans`, fuel = remaining allowed iterations.
Assignment step, convergence check against the previous assignment list,
then update step gated on the tolerance of the largest centroid move. -/
def kMeansLoop (sq : Rat → Rat) (points : List (List Rat)) (k : Nat)
    (tolerance : Rat) :
    Nat → List (List Rat) → List Nat → Nat → (List (List Rat) × List Nat × Nat)
  | 0, centroids, assignments, iterations => (centroids, assignments, iterations)
  | fuel + 1, centroids, assignments, iterations =>
    let newAssignments := points.map (fun point => findNearestCentroid sq point centroids)
    if assignments = newAssignments then (centroids, newAssignments, iterations + 1)
    else
      let newCentroids := updateCentroids points newAssignments k
      let maxMove := maxCentroidMovement sq centroids newCentroids
      if maxMove < tolerance then (newCentroids, newAssignments, iterations + 1)
      else kMeansLoop sq points k tolerance fuel newCentroids newAssignments (iterations + 1)

/-- The id/point pairs assigned to centroid index `i` at the end of
`kMeans`. -/
def memberPairsAt (ids : List String) (points : List (List Rat))
    (assignments : List Nat) (i : Nat) : List ((String × List Rat) × Nat) :=
  ((ids.zip points).zip assignments).filter (fun pa => pa.2 == i)

/-- The cluster built for centroid index `i` at the end of `kMeans`. -/
def clusterAt (sq : Rat → Rat) (ids : List String) (points : List (List Rat))
    (assignments : List Nat) (centroids : List (List Rat)) (i : Nat) : Cluster :=
  let memberPairs := memberPairsAt ids points assignments i
  { id := "cluster-" ++ toString i
    centroid := centroids.getD i []
    members := memberPairs.map (fun pa => pa.1.1)
    variance := svcCalculateVariance sq (memberPairs.map (fun pa => pa.1.2))
      (centroids.getD i []) }

/-- One index of the cluster-construction loop at the end of `kMeans`:
non-empty clusters are appended together with their assignment-map
entries, empty ones are dropped. -/
def buildClustersStep (sq : Rat → Rat) (ids : List String) (points : List (List Rat))
    (assignments : List Nat) (centroids : List (List Rat))
    (acc : List Cluster × List (String × String)) (i : Nat) :
    List Cluster × List (String × String) :=
  let memberPairs := memberPairsAt ids points assignments i
  let members := memberPairs.map (fun pa => pa.1.1)
  if members.length > 0 then
    let clusterId := "cluster-" ++ toString i
    (acc.1 ++ [clusterAt sq ids points assignments centroids i],
     acc.2 ++ members.map (fun memberId => (memberId, clusterId)))
  else acc

/-- Cluster construction at the end of `kMeans`: for each centroid index,
collect the assigned ids and points, keep only non-empty clusters, and
record the per-member assignment map. -/
def buildClusters (sq : Rat → Rat) (ids : List String) (points : List (List Rat))
    (assignments : List Nat) (centroids : List (List Rat)) (k : Nat) :
    List Cluster × List (String × String) :=
  (List.range k).foldl (buildClustersStep sq ids points assignments centroids) ([], [])

/-- `createSinglePointClusters`: one singleton cluster per map entry, the
entry vector as centroid, variance `0`. -/
def createSinglePointClusters (vectors : List (String × List Rat)) : ClusterResult :=
  let clusters := vectors.enum.map (fun e =>
    { id := "cluster-" ++ toString e.1, centroid := e.2.2,
      members := [e.2.1], variance := (0 : Rat) : Cluster })
  { clusters := clusters,
    assignments := vectors.enum.map (fun e => (e.2.1, "cluster-" ++ toString e.1)),
    iterations := none }

/-- `KMeansClusteringService.kMeans`. Empty input returns the empty
result; fewer entries than `k` short-circuits into singleton clusters;
otherwise k-means++ initialisation (the random-init branch is dead code in
this codebase: every call site leaves `useKMeansPlusPlus` at its default
`true`), the assignment/update loop, and cluster construction. -/
def kMeans (sq : Rat → Rat) (rng : Nat → Rat) (vectors : List (String × List Rat))
    (options : KMeansOptions) : ClusterResult :=
  let k := options.k
  let maxIterations := options.maxIterations.getD 100
  let tolerance := options.tolerance.getD (1 / 10000)
  if vectors.length = 0 then { clusters := [], assignments := [], iterations := none }
  else if vectors.length < k then createSinglePointClusters vectors
  else
    let ids := vectors.map Prod.fst
    let points := vectors.map Prod.snd
    let centroids := kMeansPlusPlusInit sq rng points k
    let (finalCentroids, finalAssignments, iterations) :=
      kMeansLoop sq points k tolerance maxIterations centroids
        (List.replicate points.length 0) 0
    let (clusters, assignmentMap) :=
      buildClusters sq ids points finalAssignments finalCentroids k
    { clusters := clusters, assignments := assignmentMap, iterations := some iterations }

/-- `calculateDensity`: mean member distance to the cluster centroid,
normalised by the mean distance of the whole corpus to the global
centroid; `1` in the degenerate all-identical corpus; clamped to
`[0, 1]`. Members missing from the corpus map contribute no distance but
still count in the divisor, as in the source. -/
def calculateDensity (sq : Rat → Rat) (cluster : Cluster)
    (allVectors : List (String × List Rat)) : Rat :=
  if cluster.members.length = 0 then 0
  else
    let totalDistance := (cluster.members.map (fun memberId =>
      match allVectors.lookup memberId with
      | some vector => euclidT sq vector cluster.centroid
      | none => 0)).sum
    let avgDistance := totalDistance / (cluster.members.length : Rat)
    let allPoints := allVectors.map Prod.snd
    let globalCentroid := centroidT allPoints
    let globalAvgDistance :=
      (allPoints.map (fun point => euclidT sq point globalCentroid)).sum
        / (allPoints.length : Rat)
    if globalAvgDistance = 0 then 1
    else
      let normalizedDistance := avgDistance / globalAvgDistance
      max 0 (min 1 (1 - normalizedDistance / 2))

/-! ### Sparse-region entities and `DetectSparseRegionsUseCase` -/

/-- `NoteDistance`: a note path with its distance to a region centroid. -/
structure NoteDistance : Type where
  notePath : String
  distance : Rat
deriving DecidableEq, Repr

/-- `SparseRegion` entity. -/
structure SparseRegion : Type where
  id : String
  centroid : List Rat
  density : Rat
  nearestNotes : List NoteDistance
  inferredTopic : Option String
  boundaryNotes : List String
  noteCount : Nat
deriving DecidableEq, Repr

/-- `NoteEmbedding` record of the embedding reader (the content hash plays
no role in the embedded code paths and is carried opaquely). -/
structure NoteEmbedding : Type where
  notePath : String
  vector : List Rat
  contentHash : String
deriving DecidableEq, Repr

/-- `SparseDetectionOptions` with the optional fields the source defaults. -/
structure SparseDetectionOptions : Type where
  clusterCount : Option Nat
  sparsityThreshold : Option Rat
  maxRegions : Option Nat
  excludeFolders : Option (List String)
deriving DecidableEq, Repr

/-- String prefix test (`String.prototype.startsWith`), computed on the
character lists so that concrete instances reduce. -/
def strStartsWith (s p : String) : Bool :=
  p.data.isPrefixOf s.data

/-- `filterExcludedFolders`: drop embeddings whose note path starts with
any excluded folder; identity when no folder is configured. -/
def filterExcludedFolders (embeddings : List (String × NoteEmbedding))
    (excludeFolders : List String) : List (String × NoteEmbedding) :=
  if excludeFolders.length = 0 then embeddings
  else embeddings.filter (fun e =>
    ¬ excludeFolders.any (fun folder => strStartsWith e.2.notePath folder))

/-- `calculateOptimalK`: `round(sqrt(n / 2))` clamped to `[3, 20]`; the
square root goes through the abstract `Math.sqrt` model. JavaScript
`Math.round` rounds half toward positive infinity, as does `round`. -/
def calculateOptimalK (sq : Rat → Rat) (noteCount : Nat) : Nat :=
  let k := (round (sq ((noteCount : Rat) / 2))).toNat
  max 3 (min 20 k)

/-- `findNearestNotes`: each member present in the embeddings map paired
with its distance to the cluster centroid, sorted ascending by distance
(stable, as `Array.prototype.sort`). -/
def findNearestNotes (sq : Rat → Rat) (cluster : Cluster)
    (embeddings : List (String × NoteEmbedding)) : List NoteDistance :=
  let distances := cluster.members.filterMap (fun noteId =>
    (embeddings.lookup noteId).map (fun embedding =>
      { notePath := embedding.notePath,
        distance := euclidT sq embedding.vector cluster.centroid : NoteDistance }))
  distances.mergeSort (fun a b => a.distance ≤ b.distance)

/-- `Math.ceil(n * 0.2)` for a natural `n`: the exact value is `⌈n / 5⌉`,
which on naturals is `(n + 4) / 5` (JavaScript computes it without
rounding error for every array length arising here). -/
def ceilFifth (n : Nat) : Nat :=
  (n + 4) / 5

/-- `findBoundaryNotes`: the `min(3, ceil(0.2 * n))` distance-sorted
members farthest from the centroid (`slice(-count)` keeps the tail of the
ascending list). -/
def findBoundaryNotes (sq : Rat → Rat) (cluster : Cluster)
    (embeddings : List (String × NoteEmbedding)) : List String :=
  let distances := findNearestNotes sq cluster embeddings
  let boundaryCount := min 3 (ceilFifth distances.length)
  (distances.drop (distances.length - boundaryCount)).map (fun d => d.notePath)

/-- `DetectSparseRegionsUseCase.execute`: load, filter exclusions, require
three notes, choose `k` (an explicit count, but `0` is falsy in
`clusterCount || this.calculateOptimalK(...)`), run k-means, keep clusters
below the sparsity threshold as regions, sort ascending by density and
truncate. -/
def detectSparseRegionsExecute (sq : Rat → Rat) (rng : Nat → Rat)
    (embeddings : List (String × NoteEmbedding))
    (options : SparseDetectionOptions) : List SparseRegion :=
  let sparsityThreshold := options.sparsityThreshold.getD (3 / 10)
  let maxRegions := options.maxRegions.getD 10
  let excludeFolders := options.excludeFolders.getD []
  if embeddings.length = 0 then []
  else
    let filteredEmbeddings := filterExcludedFolders embeddings excludeFolders
    if filteredEmbeddings.length < 3 then []
    else
      let vectors := filteredEmbeddings.map (fun e => (e.1, e.2.vector))
      let k := match options.clusterCount with
        | some c => if c ≠ 0 then c else calculateOptimalK sq vectors.length
        | none => calculateOptimalK sq vectors.length
      let clusterResult := kMeans sq rng vectors
        { k := k, maxIterations := some 100, tolerance := some (1 / 10000),
          useKMeansPlusPlus := some true }
      let sparseRegions := clusterResult.clusters.foldl (fun acc cluster =>
        let density := calculateDensity sq cluster vectors
        if density < sparsityThreshold then
          acc ++ [{ id := cluster.id, centroid := cluster.centroid,
                    density := density,
                    nearestNotes := findNearestNotes sq cluster filteredEmbeddings,
                    inferredTopic := none,
                    boundaryNotes := findBoundaryNotes sq cluster filteredEmbeddings,
                    noteCount := cluster.members.length : SparseRegion }]
        else acc) []
      (sparseRegions.mergeSort (fun a b => a.density ≤ b.density)).take maxRegions

/-! ### `ObsidianLinkGraphReader` (adapters/graph) -/

/-- A markdown file of the vault: its path and raw content. -/
structure VaultFile : Type where
  path : String
  content : String
deriving DecidableEq, Repr

/-- `NoteLinks`: per-document record of outgoing references and tags. -/
structure NoteLinks : Type where
  path : String
  outgoingLinks : List String
  tags : List String
deriving DecidableEq, Repr

/-- `UndefinedLink`: an unresolved reference with its running count and
its (deduplicated) source-document list. -/
structure UndefinedLink : Type where
  linkText : String
  sources : List String
  count : Nat
deriving DecidableEq, Repr

/-- `LinkGraph`: notes, reverse index of resolved references, and the
undefined-reference index keyed by raw reference text. -/
structure LinkGraph : Type where
  notes : List (String × NoteLinks)
  incomingLinks : List (String × List String)
  undefinedLinks : List (String × UndefinedLink)
deriving DecidableEq, Repr

/-- String suffix test (`String.prototype.endsWith`), on character lists. -/
def strEndsWith (s p : String) : Bool :=
  p.data.isSuffixOf s.data

/-- ASCII lowercasing (`String.prototype.toLowerCase` on the ASCII names
involved here). -/
def strToLower (s : String) : String :=
  String.mk (s.data.map Char.toLower)

/-- `.trim`: strip leading and trailing whitespace. -/
def strTrim (s : String) : String :=
  String.mk (((s.data.dropWhile Char.isWhitespace).reverse.dropWhile
    Char.isWhitespace).reverse)

/-- Split a character list at a separator character (`String.split`). -/
def splitOnCharList (sep : Char) : List Char → List (List Char)
  | [] => [[]]
  | c :: cs =>
    match splitOnCharList sep cs with
    | [] => [[]]
    | g :: gs => if c = sep then [] :: g :: gs else (c :: g) :: gs

/-- Split the reference on slash and keep the last component, falling back
to the whole text when that component is empty (the falsy fallback). -/
def normalizeLinkTarget (link : String) : String :=
  let last := String.mk ((splitOnCharList '/' link.data).getLastD [])
  if last = "" then link else last

/-- Strip a trailing `.md` extension from a path, if present. -/
def stripMdSuffix (s : String) : String :=
  if strEndsWith s ".md" then String.mk (s.data.take (s.data.length - 3)) else s

/-- `TFile.basename` for a markdown file: the file name without folders
and without the `.md` extension (behaviour of the external Obsidian file
object on the markdown files this reader enumerates). -/
def fileBasename (path : String) : String :=
  stripMdSuffix (String.mk ((splitOnCharList '/' path.data).getLastD []))

/-- `EXCLUDED_EXTENSIONS` (images, documents, audio, video, archives, web
files). -/
def excludedExtensions : List String :=
  [".png", ".jpg", ".jpeg", ".gif", ".svg", ".webp", ".bmp", ".ico",
   ".pdf", ".doc", ".docx", ".xls", ".xlsx", ".ppt", ".pptx",
   ".mp3", ".wav", ".ogg", ".m4a", ".flac",
   ".mp4", ".mov", ".avi", ".mkv", ".webm",
   ".zip", ".rar", ".7z", ".tar", ".gz",
   ".css", ".js", ".json", ".xml", ".html", ".htm"]

/-- `isExcludedFileType`: the lowercased reference ends in an excluded
file extension. -/
def isExcludedFileType (link : String) : Bool :=
  excludedExtensions.any (fun ext => strEndsWith (strToLower link) ext)

/-- `shouldExclude`: the path starts with a configured excluded folder.
The external `normalizePath` is modelled as the identity on the already
normalized slash-separated paths handled here. -/
def shouldExclude (excludeFolders : List String) (path : String) : Bool :=
  excludeFolders.any (fun folder => strStartsWith path folder)

/-- One attempt of the wiki-link pattern `\[\[([^\]|]+)(?:\|[^\]]+)?\]\]`
at the head of the character list. The first group is the maximal
nonempty run free of `]` and `|`; an optional `|`-alias (maximal nonempty
run free of `]`) is skipped; both forms must close with `]]`. Returns the
captured target and the characters after the match; `none` when the
pattern cannot match at this position (backtracking cannot help: the
greedy runs already stop exactly at the first excluded character). -/
def tryWikiLink (cs : List Char) : Option (String × List Char) :=
  match cs with
  | '[' :: '[' :: rest =>
    let target := rest.takeWhile (fun c => c ≠ ']' ∧ c ≠ '|')
    let afterTarget := rest.dropWhile (fun c => c ≠ ']' ∧ c ≠ '|')
    if target.isEmpty then none
    else
      match afterTarget with
      | ']' :: ']' :: rest' => some (String.mk target, rest')
      | '|' :: afterPipe =>
        let aliasRun := afterPipe.takeWhile (fun c => c ≠ ']')
        let afterAlias := afterPipe.dropWhile (fun c => c ≠ ']')
        if aliasRun.isEmpty then none
        else
          match afterAlias with
          | ']' :: ']' :: rest' => some (String.mk target, rest')
          | _ => none
      | _ => none
  | _ => none

/-- The global-regex scan of `WIKI_LINK_REGEX.exec`: try a match at each
position, resume after a successful match, advance one character after a
failed attempt. Fuel-bounded by the content length. -/
def scanWikiLinks : Nat → List Char → List String
  | 0, _ => []
  | _, [] => []
  | fuel + 1, c :: cs =>
    match tryWikiLink (c :: cs) with
    | some (target, rest) => target :: scanWikiLinks fuel rest
    | none => scanWikiLinks fuel cs

/-- `extractLinks`: every regex capture, trimmed, kept when nonempty, not
yet collected (per-document deduplication), not an excluded file type and
not inside an excluded folder. -/
def extractLinks (excludeFolders : List String) (content : String) : List String :=
  (scanWikiLinks content.data.length content.data).foldl (fun links raw =>
    let link := strTrim raw
    if link ≠ "" ∧ ¬ links.contains link then
      if isExcludedFileType link then links
      else if shouldExclude excludeFolders link then links
      else links ++ [link]
    else links) []

/-- Characters allowed in a tag body: ASCII letters, digits, underscore,
dash and slash. -/
def tagChar (c : Char) : Bool :=
  (c.isAlpha ∧ c.val < 128) ∨ (c.isDigit) ∨ c = '_' ∨ c = '-' ∨ c = '/'

/-- Scan of the inline-tag pattern: a hash at the start or right after
whitespace opens a maximal nonempty tag-character run. Fuel-bounded by
the content length. -/
def scanTags : Nat → Bool → List Char → List String
  | 0, _, _ => []
  | _, _, [] => []
  | fuel + 1, atBoundary, c :: cs =>
    if atBoundary ∧ c = '#' then
      let run := cs.takeWhile tagChar
      if run.isEmpty then scanTags fuel false cs
      else String.mk run :: scanTags fuel false (cs.dropWhile tagChar)
    else scanTags fuel c.isWhitespace cs

/-- `extractTags`: the scanned tags, deduplicated in first-seen order. -/
def extractTags (content : String) : List String :=
  (scanTags content.data.length true content.data).foldl (fun tags tag =>
    if ¬ tags.contains tag then tags ++ [tag] else tags) []

/-- `findNotePath`: first file whose basename matches the target or whose
path is the target plus `.md`. -/
def findNotePath (linkTarget : String) (files : List VaultFile) : Option String :=
  (files.find? (fun file =>
    fileBasename file.path = linkTarget ∨ file.path = linkTarget ++ ".md")).map
    (fun file => file.path)

/-- The per-link step of `buildGraph`: resolved references extend the
reverse index (a `Set`, so the source path is added once); unresolved
references bump the undefined record, incrementing `count` on every
occurrence of the link in the per-document link list and adding the
source path only when new. -/
def processLink (existingNotes : List String) (files : List VaultFile)
    (filePath : String)
    (st : List (String × List String) × List (String × UndefinedLink))
    (link : String) :
    List (String × List String) × List (String × UndefinedLink) :=
  let (incomingLinks, undefinedLinks) := st
  let normalizedLink := normalizeLinkTarget link
  if existingNotes.contains normalizedLink ∨ existingNotes.contains link then
    let targetPath := (findNotePath normalizedLink files).getD normalizedLink
    let incoming := (incomingLinks.lookup targetPath).getD []
    let incoming' := if incoming.contains filePath then incoming
                     else incoming ++ [filePath]
    (mapSet incomingLinks targetPath incoming', undefinedLinks)
  else
    match undefinedLinks.lookup link with
    | some existing =>
      (incomingLinks, mapSet undefinedLinks link
        { existing with
          count := existing.count + 1
          sources := if existing.sources.contains filePath then existing.sources
                     else existing.sources ++ [filePath] })
    | none =>
      (incomingLinks,
       undefinedLinks ++ [(link, { linkText := link, sources := [filePath], count := 1 })])

/-- The per-file step of `buildGraph`: excluded files are skipped; the
rest contribute their note record and fold every extracted link through
`processLink`. -/
def processFile (existingNotes : List String) (files : List VaultFile)
    (excludeFolders : List String)
    (st : List (String × NoteLinks) × List (String × List String)
          × List (String × UndefinedLink))
    (file : VaultFile) :
    List (String × NoteLinks) × List (String × List String)
      × List (String × UndefinedLink) :=
  let (notes, incomingLinks, undefinedLinks) := st
  if shouldExclude excludeFolders file.path then st
  else
    let links := extractLinks excludeFolders file.content
    let tags := extractTags file.content
    let notes' := notes ++
      [(file.path, { path := file.path, outgoingLinks := links, tags := tags })]
    let (incoming', undefined') :=
      links.foldl (processLink existingNotes files file.path)
        (incomingLinks, undefinedLinks)
    (notes', incoming', undefined')

/-- The set of identifiers resolvable as existing notes: every path
without extension and every basename (built over all markdown files,
before folder exclusion). -/
def existingNoteIds (files : List VaultFile) : List String :=
  files.foldl (fun acc file => acc ++ [stripMdSuffix file.path, fileBasename file.path]) []

/-- `ObsidianLinkGraphReader.buildGraph` on a given vault enumeration and
excluded-folder configuration (cache behaviour is state-identical: a hit
returns the identical structure). -/
def buildGraph (files : List VaultFile) (excludeFolders : List String) : LinkGraph :=
  let existingNotes := existingNoteIds files
  let (notes, incomingLinks, undefinedLinks) :=
    files.foldl (processFile existingNotes files excludeFolders) ([], [], [])
  { notes := notes, incomingLinks := incomingLinks, undefinedLinks := undefinedLinks }

/-- `getUndefinedLinks`: the undefined-reference records in insertion
order. -/
def getUndefinedLinks (graph : LinkGraph) : List UndefinedLink :=
  graph.undefinedLinks.map Prod.snd

/-! ### `FindUndefinedConceptsUseCase` -/

/-- `UndefinedConcept` entity. -/
structure UndefinedConcept : Type where
  name : String
  mentionCount : Nat
  mentionedIn : List String
  relatedConcepts : List String
  suggestedContent : Option String
deriving DecidableEq, Repr

/-- `FindUndefinedConceptsOptions` with the optional fields the source
defaults. -/
structure FindUndefinedConceptsOptions : Type where
  minMentions : Option Nat
  maxConcepts : Option Nat
  analyzeCoOccurrence : Option Bool
  excludeFolders : Option (List String)
deriving Repr

/-- Exact-date pattern `^\d{4}-\d{2}-\d{2}$`. -/
def isDateLink (cs : List Char) : Bool :=
  match cs with
  | [y1, y2, y3, y4, d1, m1, m2, d2, a1, a2] =>
    y1.isDigit ∧ y2.isDigit ∧ y3.isDigit ∧ y4.isDigit ∧ d1 = '-' ∧
    m1.isDigit ∧ m2.isDigit ∧ d2 = '-' ∧ a1.isDigit ∧ a2.isDigit
  | _ => false

/-- `isSystemLink`: template-prefixed, underscore-prefixed, ISO dates, and
the case-insensitive index and meta names. -/
def isSystemLink (linkText : String) : Bool :=
  strStartsWith (strToLower linkText) "template" ∨
  strStartsWith linkText "_" ∨
  isDateLink linkText.data ∨
  strToLower linkText = "moc" ∨
  strToLower linkText = "index" ∨
  strToLower linkText = "readme" ∨
  strToLower linkText = "todo" ∨
  strToLower linkText = "changelog"

/-- `filterLinks`: minimum total mentions, then (when folders are
excluded) minimum non-excluded source count, then the system-link
exclusion. -/
def filterLinks (links : List UndefinedLink) (minMentions : Nat)
    (excludeFolders : List String) : List UndefinedLink :=
  links.filter (fun link =>
    if link.count < minMentions then false
    else if excludeFolders.length > 0 ∧
        (link.sources.filter (fun source =>
          ¬ excludeFolders.any (fun folder => strStartsWith source folder))).length
          < minMentions then false
    else ¬ isSystemLink link.linkText)

/-- The link-graph reader as consumed through its interface by this use
case: the undefined-reference records and the co-occurrence query. -/
structure LinkGraphReaderData : Type where
  undefinedLinks : List UndefinedLink
  coOccurring : String → Nat → List String

/-- `FindUndefinedConceptsUseCase.execute`: filter the undefined links,
convert to concepts (optionally with co-occurrence at threshold 2), sort
descending by mention count (stable) and truncate. -/
def findUndefinedConceptsExecute (reader : LinkGraphReaderData)
    (options : FindUndefinedConceptsOptions) : List UndefinedConcept :=
  let minMentions := options.minMentions.getD 2
  let maxConcepts := options.maxConcepts.getD 50
  let analyzeCoOccurrence := options.analyzeCoOccurrence.getD true
  let excludeFolders := options.excludeFolders.getD []
  let filteredLinks := filterLinks reader.undefinedLinks minMentions excludeFolders
  let concepts := filteredLinks.map (fun link =>
    { name := link.linkText
      mentionCount := link.count
      mentionedIn := link.sources
      relatedConcepts :=
        if analyzeCoOccurrence then reader.coOccurring link.linkText 2 else []
      suggestedContent := none : UndefinedConcept })
  (concepts.mergeSort (fun a b => b.mentionCount ≤ a.mentionCount)).take maxConcepts

/-! ### Knowledge-gap entities and `AnalyzeGapsUseCase` -/

/-- `GapType`. -/
inductive GapType : Type where
  | sparse_region : GapType
  | undefined_concept : GapType
  | weak_connection : GapType
deriving DecidableEq, Repr, Fintype

/-- `GapSeverity`. -/
inductive GapSeverity : Type where
  | minor : GapSeverity
  | moderate : GapSeverity
  | significant : GapSeverity
deriving DecidableEq, Repr, Fintype

/-- `KnowledgeGap` entity (`detectedAt` is an impure timestamp, carried as
a unit). -/
structure KnowledgeGap : Type where
  id : String
  type : GapType
  title : String
  description : String
  severity : GapSeverity
  suggestedTopics : List String
  relatedNotes : List String
  detectedAt : Unit
deriving DecidableEq, Repr

/-- `AnalyzeOptions` with the optional fields the source defaults. -/
structure AnalyzeOptions : Type where
  clusterCount : Option Nat
  minMentions : Option Nat
  sparsityThreshold : Option Rat
  excludeFolders : Option (List String)
  useLLM : Option Bool
  maxGaps : Option Nat
deriving DecidableEq, Repr

/-- `GapReport` (`analyzedAt` is an impure timestamp, carried as a unit). -/
structure GapReport : Type where
  analyzedAt : Unit
  totalNotesAnalyzed : Nat
  totalEmbeddings : Nat
  sparseRegions : List SparseRegion
  undefinedConcepts : List UndefinedConcept
  gaps : List KnowledgeGap
  options : AnalyzeOptions
deriving DecidableEq, Repr

/-- `extractNoteTitle` (note-id utilities): file name without folders and
without the `.md` extension. -/
def extractNoteTitle (path : String) : String :=
  let filename := String.mk ((splitOnCharList '/' path.data).getLastD [])
  let filename := if filename = "" then path else filename
  stripMdSuffix filename

/-- The LLM service as consumed through its interface: availability, the
topic returned by `inferTopic` and the text of
`describeUndefinedConcept`. -/
structure LLMData : Type where
  isAvailable : Bool
  inferTopic : List String → String
  describeUndefinedConcept : String → List String → Option String

/-- `SuggestExplorationUseCase.inferTopicForRegion`: the inferred topic,
absent when the service is unavailable. -/
def inferTopicForRegion (llm : LLMData) (noteTitles : List String) : Option String :=
  if llm.isAvailable = false then none else some (llm.inferTopic noteTitles)

/-- `SuggestExplorationUseCase.suggestContentForConcept`: the suggested
text, absent when the service is unavailable. -/
def suggestContentForConcept (llm : LLMData) (concept : UndefinedConcept) :
    Option String :=
  if llm.isAvailable = false then none
  else llm.describeUndefinedConcept concept.name concept.mentionedIn

/-- JavaScript `a || b` on an optional string: the fallback fires on
`undefined` and on the falsy empty string. -/
def orElseStr (a : Option String) (b : String) : String :=
  match a with
  | some s => if s = "" then b else s
  | none => b

/-- The embedding reader as consumed through its interface. -/
structure EmbeddingReaderData : Type where
  isAvailable : Bool
  embeddingCount : Nat
  allEmbeddings : List (String × NoteEmbedding)

/-- The cooperative cancellation flag of one `execute` run: `cancel()`
events are modelled by the index of the first flag read that observes the
flag set (`none` when no cancel happens during the run); once set the
flag stays set, so read `i` observes `n ≤ i`. -/
def cancelFlagAt (cancelAfter : Option Nat) (i : Nat) : Bool :=
  match cancelAfter with
  | none => false
  | some n => n ≤ i

/-- The per-region enrichment of `enrichSparseRegions`: `inferredTopic`
from the top-5 nearest note titles, with the `Cluster <id>` fallback. -/
def enrichRegionItem (llm : LLMData) (region : SparseRegion) : SparseRegion :=
  let noteTitles := (region.nearestNotes.take 5).map (fun n => extractNoteTitle n.notePath)
  let inferredTopic := inferTopicForRegion llm noteTitles
  { region with
    inferredTopic := some (orElseStr inferredTopic ("Cluster " ++ region.id)) }

/-- `enrichSparseRegions`: per region, break out when the flag is set at
the loop head, otherwise enrich. Threads the flag-read counter. -/
def enrichSparseRegionsLoop (llm : LLMData) (flag : Nat → Bool) :
    List SparseRegion → Nat → List SparseRegion × Nat
  | [], t => ([], t)
  | region :: rest, t =>
    if flag t then ([], t + 1)
    else
      let (rest', t') := enrichSparseRegionsLoop llm flag rest (t + 1)
      (enrichRegionItem llm region :: rest', t')

/-- The per-concept enrichment of `enrichUndefinedConcepts`. -/
def enrichConceptItem (llm : LLMData) (concept : UndefinedConcept) : UndefinedConcept :=
  { concept with suggestedContent := suggestContentForConcept llm concept }

/-- `enrichUndefinedConcepts`: per concept, break out when the flag is set
at the loop head, otherwise enrich. -/
def enrichUndefinedConceptsLoop (llm : LLMData) (flag : Nat → Bool) :
    List UndefinedConcept → Nat → List UndefinedConcept × Nat
  | [], t => ([], t)
  | concept :: rest, t =>
    if flag t then ([], t + 1)
    else
      let (rest', t') := enrichUndefinedConceptsLoop llm flag rest (t + 1)
      (enrichConceptItem llm concept :: rest', t')

/-- `calculateSparseRegionSeverity`. -/
def calculateSparseRegionSeverity (region : SparseRegion) : GapSeverity :=
  if region.density < 1 / 10 then .significant
  else if region.density < 2 / 10 then .moderate
  else .minor

/-- `calculateConceptSeverity`. -/
def calculateConceptSeverity (concept : UndefinedConcept) : GapSeverity :=
  if 10 ≤ concept.mentionCount then .significant
  else if 5 ≤ concept.mentionCount then .moderate
  else .minor

/-- Replace each maximal whitespace run by a single dash; the flag records
whether the previous character was whitespace. -/
def slugGo : Bool → List Char → List Char
  | _, [] => []
  | prevWs, c :: cs =>
    if c.isWhitespace then
      (if prevWs then [] else ['-']) ++ slugGo true cs
    else c :: slugGo false cs

/-- The slug of a concept-gap id: whitespace runs to dashes, lowercased
(`name.replace` of whitespace runs by dashes, then `toLowerCase`). -/
def conceptSlug (name : String) : String :=
  strToLower (String.mk (slugGo false name.data))

/-- Rendering of a rational for the density percentage of a region
description; the floating-point `toFixed(1)` formatting is abstracted as
the exact rational rendering, no claim depending on the rendered text. -/
def toFixed1 (q : Rat) : String :=
  toString q

/-- `String.prototype.slice(0, n)`. -/
def strTake (s : String) (n : Nat) : String :=
  String.mk (s.data.take n)

/-- The knowledge gap built from a sparse region. -/
def sparseRegionGap (region : SparseRegion) : KnowledgeGap :=
  { id := "sparse-" ++ region.id
    type := .sparse_region
    title := orElseStr region.inferredTopic ("Low Coverage Area " ++ region.id)
    description := "This area of your knowledge base has low note density (" ++
      toFixed1 (region.density * 100) ++
      "%). Consider exploring topics related to: " ++
      String.intercalate ", "
        ((region.nearestNotes.take 3).map (fun n => extractNoteTitle n.notePath)) ++ "."
    severity := calculateSparseRegionSeverity region
    suggestedTopics := (region.nearestNotes.take 5).map (fun n => extractNoteTitle n.notePath)
    relatedNotes := (region.nearestNotes.take 10).map (fun n => n.notePath)
    detectedAt := () }

/-- The knowledge gap built from an undefined concept. -/
def undefinedConceptGap (concept : UndefinedConcept) : KnowledgeGap :=
  { id := "undefined-" ++ conceptSlug concept.name
    type := .undefined_concept
    title := concept.name
    description := "\"" ++ concept.name ++ "\" is mentioned " ++
      toString concept.mentionCount ++ " times but has no dedicated note." ++
      (match concept.suggestedContent with
       | some content => " Suggested focus: " ++ strTake content 100 ++ "..."
       | none => "")
    severity := calculateConceptSeverity concept
    suggestedTopics := concept.relatedConcepts.take 5
    relatedNotes := concept.mentionedIn.take 10
    detectedAt := () }

/-- `createKnowledgeGaps`: sparse-region gaps first, then concept gaps. -/
def createKnowledgeGaps (sparseRegions : List SparseRegion)
    (undefinedConcepts : List UndefinedConcept) : List KnowledgeGap :=
  sparseRegions.map sparseRegionGap ++ undefinedConcepts.map undefinedConceptGap

/-- `severityOrder` of the priority comparator. -/
def severityOrder (s : GapSeverity) : Int :=
  match s with
  | .significant => 3
  | .moderate => 2
  | .minor => 1

/-- The priority comparison on the severity and type data of two gaps:
severity descending, undefined concepts before other types at equal
severity. -/
def gapCompareCore (s1 : GapSeverity) (t1 : GapType) (s2 : GapSeverity)
    (t2 : GapType) : Int :=
  let severityDiff := severityOrder s2 - severityOrder s1
  if severityDiff ≠ 0 then severityDiff
  else if t1 = .undefined_concept ∧ t2 ≠ .undefined_concept then -1
  else if t2 = .undefined_concept ∧ t1 ≠ .undefined_concept then 1
  else 0

/-- The priority comparator of `sortGapsByPriority`. -/
def gapCompare (a b : KnowledgeGap) : Int :=
  gapCompareCore a.severity a.type b.severity b.type

/-- `sortGapsByPriority`: stable sort under the priority comparator. -/
def sortGapsByPriority (gaps : List KnowledgeGap) : List KnowledgeGap :=
  gaps.mergeSort (fun a b => gapCompare a b ≤ 0)

/-- `createEmptyReport`: the report a cancelled run returns. -/
def createEmptyReport (options : AnalyzeOptions) : GapReport :=
  { analyzedAt := ()
    totalNotesAnalyzed := 0
    totalEmbeddings := 0
    sparseRegions := []
    undefinedConcepts := []
    gaps := []
    options := options }

/-- `AnalyzeGapsUseCase.execute`. The method first clears the cancellation
flag (`this.cancelled = false`), so the `prior` flag state left by any
earlier `cancel()` call is discarded and only cancel events of this run
(the `cancelAfter` schedule) are observed; progress reporting is a pure
side effect and is not modelled. Phases: availability check (fatal
failure), sparse-region detection, undefined-concept analysis, optional
LLM enrichment (with per-item flag checks), gap creation, priority sort
and truncation. The flag is read at each phase boundary; a set flag
yields the empty report. -/
def analyzeGapsExecute (sq : Rat → Rat) (rng : Nat → Rat)
    (embeddingReader : EmbeddingReaderData) (linkGraphReader : LinkGraphReaderData)
    (llmService : LLMData) (prior : Bool) (cancelAfter : Option Nat)
    (options : AnalyzeOptions) : Except String GapReport :=
  let _cleared : Bool := false
  let _ := prior
  let flag := cancelFlagAt cancelAfter
  let minMentions := options.minMentions.getD 2
  let sparsityThreshold := options.sparsityThreshold.getD (3 / 10)
  let excludeFolders := options.excludeFolders.getD []
  let useLLM := options.useLLM.getD true
  let maxGaps := options.maxGaps.getD 50
  if embeddingReader.isAvailable = false then
    .error "Vault Embeddings data not found. Please ensure Vault Embeddings plugin is installed and has indexed your vault."
  else
    let embeddingCount := embeddingReader.embeddingCount
    if flag 0 then .ok (createEmptyReport options)
    else
      let sparseRegions := detectSparseRegionsExecute sq rng
        embeddingReader.allEmbeddings
        { clusterCount := options.clusterCount
          sparsityThreshold := some sparsityThreshold
          maxRegions := none
          excludeFolders := some excludeFolders }
      if flag 1 then .ok (createEmptyReport options)
      else
        let undefinedConcepts := findUndefinedConceptsExecute linkGraphReader
          { minMentions := some minMentions
            maxConcepts := none
            analyzeCoOccurrence := none
            excludeFolders := some excludeFolders }
        if flag 2 then .ok (createEmptyReport options)
        else
          let enriched :=
            if useLLM ∧ llmService.isAvailable then
              let loopR := enrichSparseRegionsLoop llmService flag sparseRegions 3
              let loopC := enrichUndefinedConceptsLoop llmService flag
                (undefinedConcepts.take 10) loopR.2
              (loopR.1, loopC.1, loopC.2)
            else (sparseRegions, undefinedConcepts, 3)
          if flag enriched.2.2 then .ok (createEmptyReport options)
          else
            let gaps := createKnowledgeGaps enriched.1 enriched.2.1
            let sortedGaps := (sortGapsByPriority gaps).take maxGaps
            .ok { analyzedAt := ()
                  totalNotesAnalyzed := embeddingCount
                  totalEmbeddings := embeddingCount
                  sparseRegions := enriched.1
                  undefinedConcepts := enriched.2.1
                  gaps := sortedGaps
                  options := options }

/-- The report of a run that is never cancelled: all phases complete. -/
def completedGapReport (sq : Rat → Rat) (rng : Nat → Rat)
    (embeddingReader : EmbeddingReaderData) (linkGraphReader : LinkGraphReaderData)
    (llmService : LLMData) (options : AnalyzeOptions) : GapReport :=
  let minMentions := options.minMentions.getD 2
  let sparsityThreshold := options.sparsityThreshold.getD (3 / 10)
  let excludeFolders := options.excludeFolders.getD []
  let useLLM := options.useLLM.getD true
  let maxGaps := options.maxGaps.getD 50
  let embeddingCount := embeddingReader.embeddingCount
  let sparseRegions := detectSparseRegionsExecute sq rng
    embeddingReader.allEmbeddings
    { clusterCount := options.clusterCount
      sparsityThreshold := some sparsityThreshold
      maxRegions := none
      excludeFolders := some excludeFolders }
  let undefinedConcepts := findUndefinedConceptsExecute linkGraphReader
    { minMentions := some minMentions
      maxConcepts := none
      analyzeCoOccurrence := none
      excludeFolders := some excludeFolders }
  let enriched :=
    if useLLM ∧ llmService.isAvailable then
      let loopR := enrichSparseRegionsLoop llmService (fun _ => false) sparseRegions 3
      let loopC := enrichUndefinedConceptsLoop llmService (fun _ => false)
        (undefinedConcepts.take 10) loopR.2
      (loopR.1, loopC.1, loopC.2)
    else (sparseRegions, undefinedConcepts, 3)
  let gaps := createKnowledgeGaps enriched.1 enriched.2.1
  let sortedGaps := (sortGapsByPriority gaps).take maxGaps
  { analyzedAt := ()
    totalNotesAnalyzed := embeddingCount
    totalEmbeddings := embeddingCount
    sparseRegions := enriched.1
    undefinedConcepts := enriched.2.1
    gaps := sortedGaps
    options := options }

/-! ## Supporting lemmas -/

theorem mapExcept_ok_of_forall {α β : Type} (f : α → Except VMError β)
    (l : List α) (h : ∀ x ∈ l, ∃ y, f x = .ok y) :
    ∃ ys, mapExcept f l = .ok ys := by
  induction l with
  | nil => exact ⟨[], rfl⟩
  | cons x xs ih =>
    obtain ⟨y, hy⟩ := h x (List.mem_cons_self x xs)
    obtain ⟨ys, hys⟩ := ih (fun z hz => h z (List.mem_cons_of_mem x hz))
    exact ⟨y :: ys, by simp [mapExcept, hy, hys, Except.map]⟩

theorem mapExcept_error_mem {α β : Type} (f : α → Except VMError β)
    (l : List α) (e : VMError) (h : mapExcept f l = .error e) :
    ∃ x ∈ l, f x = .error e := by
  induction l with
  | nil => simp [mapExcept] at h
  | cons x xs ih =>
    by_cases hx : ∃ y, f x = .ok y
    · obtain ⟨y, hy⟩ := hx
      rw [mapExcept, hy] at h
      rcases hrec : mapExcept f xs with e' | ys
      · rw [hrec] at h
        simp [Except.map] at h
        obtain ⟨z, hz, hze⟩ := ih (by rw [hrec, h])
        exact ⟨z, List.mem_cons_of_mem x hz, hze⟩
      · rw [hrec] at h
        simp [Except.map] at h
    · rcases hfx : f x with e' | y
      · rw [mapExcept, hfx] at h
        exact ⟨x, List.mem_cons_self x xs, by rw [hfx]; injection h with h; rw [h]⟩
      · exact absurd ⟨y, hfx⟩ hx

/-! ## Claim C3 -/

/-- C3 (counterexample): the claim states the dimension mismatch of the
binary operations is the only error condition anywhere in the vector-math
component, but `calculateCentroid` on the empty vector list raises its
own distinct error. -/
theorem C3_counterexample :
    calculateCentroid [] = Except.error VMError.emptyCentroid := rfl

/-- C3 (amended): every binary vector-math operation on two vectors of
different lengths fails with the DimensionMismatch condition and succeeds
otherwise; the remaining error conditions of the component are
`calculateCentroid` on an empty vector list and the DimensionMismatch
that `calculateVariance` propagates from its distance function on
length-mismatched inputs. -/
theorem C3_amended (sq : Rat → Rat) (a b centroid : List Rat)
    (vectors : List (List Rat)) :
    (a.length ≠ b.length →
      cosineSimilarity sq a b = .error (.dimensionMismatch a.length b.length)
      ∧ cosineDistance sq a b = .error (.dimensionMismatch a.length b.length)
      ∧ euclideanDistance sq a b = .error (.dimensionMismatch a.length b.length)
      ∧ addVectors a b = .error (.dimensionMismatch a.length b.length)
      ∧ subtractVectors a b = .error (.dimensionMismatch a.length b.length))
    ∧ (a.length = b.length →
      (∃ v, cosineSimilarity sq a b = .ok v)
      ∧ (∃ v, cosineDistance sq a b = .ok v)
      ∧ (∃ v, euclideanDistance sq a b = .ok v)
      ∧ (∃ v, addVectors a b = .ok v)
      ∧ (∃ v, subtractVectors a b = .ok v))
    ∧ (calculateCentroid vectors = .error .emptyCentroid ↔ vectors = [])
    ∧ (vectors ≠ [] → ∃ c, calculateCentroid vectors = .ok c)
    ∧ ((∀ v ∈ vectors, v.length = centroid.length) →
      ∃ r, vmCalculateVariance (euclideanDistance sq) vectors centroid = .ok r)
    ∧ (∀ e, vmCalculateVariance (euclideanDistance sq) vectors centroid = .error e →
      ∃ v ∈ vectors, v.length ≠ centroid.length
        ∧ e = .dimensionMismatch v.length centroid.length) := by
  refine ⟨?_, ?_, ?_, ?_, ?_, ?_⟩
  · intro h
    refine ⟨?_, ?_, ?_, ?_, ?_⟩ <;>
      simp [cosineSimilarity, cosineDistance, euclideanDistance, addVectors,
        subtractVectors, h, Except.map]
  · intro h
    have hne : ¬ a.length ≠ b.length := by simp [h]
    have hcos : ∃ v, cosineSimilarity sq a b = .ok v := by
      rw [cosineSimilarity, if_neg hne]
      dsimp only
      split
      · exact ⟨_, rfl⟩
      · exact ⟨_, rfl⟩
    obtain ⟨v, hv⟩ := hcos
    refine ⟨⟨v, hv⟩, ⟨1 - v, ?_⟩, ?_, ?_, ?_⟩
    · rw [cosineDistance, hv]; rfl
    · rw [euclideanDistance, if_neg hne]; exact ⟨_, rfl⟩
    · rw [addVectors, if_neg hne]; exact ⟨_, rfl⟩
    · rw [subtractVectors, if_neg hne]; exact ⟨_, rfl⟩
  · constructor
    · intro hEq
      cases vectors with
      | nil => rfl
      | cons v vs => exact absurd hEq (by simp [calculateCentroid])
    · intro hEq
      subst hEq
      rfl
  · intro h
    cases vectors with
    | nil => exact absurd rfl h
    | cons v vs => exact ⟨_, rfl⟩
  · intro h
    rw [vmCalculateVariance]
    split
    · exact ⟨0, rfl⟩
    · obtain ⟨ys, hys⟩ := mapExcept_ok_of_forall
        (fun v => euclideanDistance sq v centroid) vectors (fun v hv => by
        show ∃ y, euclideanDistance sq v centroid = .ok y
        rw [euclideanDistance, if_neg (by simp [h v hv])]
        exact ⟨_, rfl⟩)
      exact ⟨_, by rw [hys]; rfl⟩
  · intro e he
    rw [vmCalculateVariance] at he
    split at he
    · exact absurd he (by simp)
    · rcases hme : mapExcept (fun v => euclideanDistance sq v centroid) vectors with e' | ys
      · rw [hme] at he
        simp [Except.map] at he
        obtain ⟨v, hv, hve⟩ := mapExcept_error_mem _ _ _ (by rw [hme, he])
        rw [euclideanDistance] at hve
        split at hve
        · exact ⟨v, hv, by assumption, by injection hve with h; rw [h]⟩
        · simp at hve
      · rw [hme] at he
        simp [Except.map] at he

/-- C3 (witness): the amended theorem applied at concrete inputs: the
1-vs-2 length mismatch errors, the matched case succeeds, the empty
centroid errors. -/
theorem C3_amended_witness :
    cosineSimilarity ratSqrt [1] [1, 2] = .error (.dimensionMismatch 1 2)
    ∧ (∃ v, addVectors [(1 : Rat)] [2] = .ok v)
    ∧ calculateCentroid [] = .error .emptyCentroid := by
  refine ⟨?_, ?_, ?_⟩
  · exact ((C3_amended ratSqrt [1] [1, 2] [] []).1 (by decide)).1
  · exact ((C3_amended ratSqrt [1] [2] [] []).2.1 (by decide)).2.2.2.1
  · exact ((C3_amended ratSqrt [] [] [] []).2.2.1).2 rfl

/-! ## Claim C8 -/

/-- The average distance of the cluster members to the cluster centroid
as `calculateDensity` computes it (members missing from the corpus map
contribute no distance but count in the divisor; with every member
present this is the plain average member distance of the claim). -/
def clusterAvgDistance (sq : Rat → Rat) (cluster : Cluster)
    (allVectors : List (String × List Rat)) : Rat :=
  (cluster.members.map (fun memberId =>
    match allVectors.lookup memberId with
    | some vector => euclidT sq vector cluster.centroid
    | none => 0)).sum / (cluster.members.length : Rat)

/-- The average distance of the whole corpus to the global centroid, the
normalisation baseline of `calculateDensity`. -/
def corpusAvgDistance (sq : Rat → Rat)
    (allVectors : List (String × List Rat)) : Rat :=
  ((allVectors.map Prod.snd).map (fun point =>
    euclidT sq point (centroidT (allVectors.map Prod.snd)))).sum
    / ((allVectors.map Prod.snd).length : Rat)

/-- C8 (confirmed): for every cluster with at least one member and every
non-empty corpus, `calculateDensity` stays within `[0, 1]`; it returns
exactly `1` when the global average distance vanishes (all corpus vectors
identical), and otherwise equals
`clamp(1 - (avgMemberDistance / globalAvgDistance) / 2, 0, 1)`. -/
theorem C8_density_bounds (sq : Rat → Rat) (cluster : Cluster)
    (allVectors : List (String × List Rat))
    (hm : cluster.members ≠ []) (hc : allVectors ≠ []) :
    (0 ≤ calculateDensity sq cluster allVectors
      ∧ calculateDensity sq cluster allVectors ≤ 1)
    ∧ (corpusAvgDistance sq allVectors = 0 →
        calculateDensity sq cluster allVectors = 1)
    ∧ (corpusAvgDistance sq allVectors ≠ 0 →
        calculateDensity sq cluster allVectors =
          max 0 (min 1 (1 - (clusterAvgDistance sq cluster allVectors
            / corpusAvgDistance sq allVectors) / 2))) := by
  have hlen : ¬ cluster.members.length = 0 := by
    simpa [List.length_eq_zero] using hm
  have hcalc : calculateDensity sq cluster allVectors =
      if corpusAvgDistance sq allVectors = 0 then 1
      else max 0 (min 1 (1 - (clusterAvgDistance sq cluster allVectors
        / corpusAvgDistance sq allVectors) / 2)) := by
    rw [calculateDensity, if_neg hlen]
    rfl
  refine ⟨?_, ?_, ?_⟩
  · rw [hcalc]
    split
    · norm_num
    · constructor
      · exact le_max_left 0 _
      · exact max_le (by norm_num) (min_le_left 1 _)
  · intro h0
    rw [hcalc, if_pos h0]
  · intro h0
    rw [hcalc, if_neg h0]

/-- Concrete single-member cluster for the C8 witness. -/
def c8Cluster : Cluster :=
  { id := "cluster-0", centroid := [3], members := ["a"], variance := 0 }

/-- Concrete one-note corpus for the C8 witness. -/
def c8AllVectors : List (String × List Rat) :=
  [("a", [3])]

/-- C8 (witness): the theorem applied to a concrete one-member cluster in
a one-note corpus; there the corpus is degenerate, so the density is
exactly 1. -/
theorem C8_density_bounds_witness :
    (c8Cluster.members ≠ [] ∧ c8AllVectors ≠ [])
    ∧ (0 ≤ calculateDensity ratSqrt c8Cluster c8AllVectors
        ∧ calculateDensity ratSqrt c8Cluster c8AllVectors ≤ 1)
    ∧ calculateDensity ratSqrt c8Cluster c8AllVectors = 1 := by
  have hzero : corpusAvgDistance ratSqrt c8AllVectors = 0 := by
    simp [corpusAvgDistance, c8AllVectors, centroidT, calculateCentroid, euclidT,
      ratSqrt, natSqrtLin, List.range_succ]
  have h := C8_density_bounds ratSqrt c8Cluster c8AllVectors
    (by simp [c8Cluster]) (by simp [c8AllVectors])
  exact ⟨⟨by simp [c8Cluster], by simp [c8AllVectors]⟩, h.1, h.2.1 hzero⟩

/-! ## Claim C6 -/

/-- One step of the k-means loop when the freshly computed assignment
equals the previous one: the loop declares convergence and returns the
current centroids untouched. -/
theorem kMeansLoop_converged (sq : Rat → Rat) (points : List (List Rat))
    (k : Nat) (tolerance : Rat) (fuel : Nat) (centroids : List (List Rat))
    (assignments : List Nat) (iterations : Nat)
    (h : assignments = points.map (fun point => findNearestCentroid sq point centroids)) :
    kMeansLoop sq points k tolerance (fuel + 1) centroids assignments iterations
      = (centroids, assignments, iterations + 1) := by
  rw [kMeansLoop, if_pos h, ← h]

/-- C6 (counterexample): the claim keys the singleton short-circuit on the
number of distinct input vectors. Two entries sharing one identical
vector give one distinct vector, which is less than `k = 2`, yet `kMeans`
takes the ordinary clustering path (the source compares the entry count,
not the distinct-vector count) and returns a single two-member cluster
rather than one singleton cluster per vector. -/
theorem C6_counterexample :
    (List.dedup (([("a", [0]), ("b", [0])] : List (String × List Rat)).map Prod.snd)).length = 1
    ∧ (1 : Nat) < 2
    ∧ ((kMeans ratSqrt rngZero [("a", [0]), ("b", [0])]
        { k := 2, maxIterations := none, tolerance := none,
          useKMeansPlusPlus := none }).clusters.map (fun c => c.members))
      = [["a", "b"]] := by
  refine ⟨by decide, by decide, ?_⟩
  have hinit : kMeansPlusPlusInit ratSqrt rngZero [[0], [0]] 2 = [[(0 : Rat)], [0]] := by
    norm_num [kMeansPlusPlusInit, kppRound, kppPick, listMinD, euclidT, ratSqrt,
      natSqrtLin, rngZero, List.range_succ, List.range']
  have hnear : findNearestCentroid ratSqrt [0] [[(0 : Rat)], [0]] = 0 := by
    norm_num [findNearestCentroid, findNearestCentroidGo, euclidT, ratSqrt, natSqrtLin,
      List.range_succ]
  have hloop : kMeansLoop ratSqrt [[0], [0]] 2 (1 / 10000) 100 [[(0 : Rat)], [0]]
      (List.replicate 2 0) 0 = ([[(0 : Rat)], [0]], List.replicate 2 0, 1) := by
    have h100 : (100 : Nat) = 99 + 1 := rfl
    rw [h100, kMeansLoop_converged]
    simp [hnear, List.replicate]
  rw [kMeans]
  dsimp only
  rw [if_neg (by decide), if_neg (by decide)]
  dsimp only
  rw [show ([("a", [0]), ("b", [0])] : List (String × List Rat)).map Prod.snd
    = [[0], [0]] from rfl] at *
  rw [hinit]
  rw [show (Option.getD (none : Option Nat) 100) = 100 from rfl,
    show (Option.getD (none : Option Rat) (1 / 10000)) = 1 / 10000 from rfl]
  rw [show ([[0], [0]] : List (List Rat)).length = 2 from rfl]
  rw [hloop]
  decide

/-- C6 (amended): when the number of map entries (not distinct vectors) is
below `k`, `kMeans` emits exactly one singleton cluster per entry, with
the vector of that entry as centroid and variance `0`. -/
theorem C6_amended (sq : Rat → Rat) (rng : Nat → Rat)
    (vectors : List (String × List Rat)) (options : KMeansOptions)
    (h : vectors.length < options.k) :
    (kMeans sq rng vectors options).clusters.length = vectors.length
    ∧ ∀ i, i < vectors.length →
      ((kMeans sq rng vectors options).clusters.getD i ⟨"", [], [], 0⟩).members
          = [(vectors.getD i ("", [])).1]
      ∧ ((kMeans sq rng vectors options).clusters.getD i ⟨"", [], [], 0⟩).centroid
          = (vectors.getD i ("", [])).2
      ∧ ((kMeans sq rng vectors options).clusters.getD i ⟨"", [], [], 0⟩).variance
          = 0 := by
  by_cases h0 : vectors.length = 0
  · have hv : vectors = [] := List.length_eq_zero.mp h0
    subst hv
    exact ⟨by rw [kMeans]; rfl, fun i hi => absurd hi (by simp)⟩
  · have hkm : kMeans sq rng vectors options = createSinglePointClusters vectors := by
      rw [kMeans]
      dsimp only
      rw [if_neg h0, if_pos h]
    rw [hkm]
    unfold createSinglePointClusters
    dsimp only
    refine ⟨by simp, ?_⟩
    intro i hi
    have hi' : i < (vectors.enum.map (fun e =>
        ({ id := "cluster-" ++ toString e.1, centroid := e.2.2,
           members := [e.2.1], variance := (0 : Rat) } : Cluster))).length := by
      simpa [List.enum_length] using hi
    rw [List.getD_eq_getElem _ _ hi', List.getElem_map,
      List.getElem_enum, List.getD_eq_getElem _ _ hi]
    exact ⟨rfl, rfl, rfl⟩

/-- C6 (witness): the amended theorem at a concrete two-entry map with
`k = 3`: two singleton clusters, each carrying its own vector and
variance `0`. -/
theorem C6_amended_witness :
    ((2 : Nat) < 3)
    ∧ (kMeans ratSqrt rngZero [("a", [1]), ("b", [2])]
        { k := 3, maxIterations := none, tolerance := none,
          useKMeansPlusPlus := none }).clusters.length = 2
    ∧ ((kMeans ratSqrt rngZero [("a", [1]), ("b", [2])]
        { k := 3, maxIterations := none, tolerance := none,
          useKMeansPlusPlus := none }).clusters.getD 0 ⟨"", [], [], 0⟩).members
      = ["a"] := by
  have h := C6_amended ratSqrt rngZero [("a", [1]), ("b", [2])]
    { k := 3, maxIterations := none, tolerance := none, useKMeansPlusPlus := none }
    (by decide)
  exact ⟨by decide, h.1, (h.2 0 (by decide)).1⟩

/-! ## Claim C2 -/

/-- C2 (code bug): with `k = 1` the initial all-zero assignment array
coincides with the first computed assignment, so the loop declares
convergence before any centroid update; the returned centroid is the
k-means++ random initial point, one of the input vectors, and never the
arithmetic mean. On the two-point corpus `a = [0]`, `b = [2]` the mean is
`[1]`, but for every valid random stream the single returned cluster has
centroid `[0]` or `[2]`. -/
theorem C2_evaluation (sq : Rat → Rat) (rng : Nat → Rat)
    (hrng : ∀ i, 0 ≤ rng i ∧ rng i < 1) :
    ((kMeans sq rng [("a", [0]), ("b", [2])]
        { k := 1, maxIterations := none, tolerance := none,
          useKMeansPlusPlus := none }).clusters.map (fun c => c.members)
      = [["a", "b"]])
    ∧ (((kMeans sq rng [("a", [0]), ("b", [2])]
        { k := 1, maxIterations := none, tolerance := none,
          useKMeansPlusPlus := none }).clusters.map (fun c => c.centroid)
        = [[(0 : Rat)]])
      ∨ ((kMeans sq rng [("a", [0]), ("b", [2])]
        { k := 1, maxIterations := none, tolerance := none,
          useKMeansPlusPlus := none }).clusters.map (fun c => c.centroid)
        = [[(2 : Rat)]]))
    ∧ centroidT [[0], [2]] = [(1 : Rat)]
    ∧ (kMeans sq rng [("a", [0]), ("b", [2])]
        { k := 1, maxIterations := none, tolerance := none,
          useKMeansPlusPlus := none }).clusters.map (fun c => c.centroid)
      ≠ [[(1 : Rat)]] := by
  obtain ⟨h0le, h0lt⟩ := hrng 0
  have hfl : ⌊rng 0 * ((2 : Nat) : Rat)⌋ = 0 ∨ ⌊rng 0 * ((2 : Nat) : Rat)⌋ = 1 := by
    have h1 : 0 ≤ ⌊rng 0 * ((2 : Nat) : Rat)⌋ :=
      Int.floor_nonneg.mpr (by positivity)
    have h2 : ⌊rng 0 * ((2 : Nat) : Rat)⌋ < 2 := by
      apply Int.floor_lt.mpr
      push_cast
      linarith
    omega
  have hrun : ∀ c : List Rat,
      kMeansPlusPlusInit sq rng [[0], [2]] 1 = [c] →
      (kMeans sq rng [("a", [0]), ("b", [2])]
        { k := 1, maxIterations := none, tolerance := none,
          useKMeansPlusPlus := none }).clusters.map (fun cl => cl.members)
        = [["a", "b"]]
      ∧ (kMeans sq rng [("a", [0]), ("b", [2])]
        { k := 1, maxIterations := none, tolerance := none,
          useKMeansPlusPlus := none }).clusters.map (fun cl => cl.centroid)
        = [c] := by
    intro c hc
    have hloop : kMeansLoop sq [[0], [2]] 1 (1 / 10000) 100 [c]
        (List.replicate 2 0) 0 = ([c], List.replicate 2 0, 1) := by
      have h100 : (100 : Nat) = 99 + 1 := rfl
      rw [h100, kMeansLoop_converged]
      rfl
    constructor <;>
    · rw [kMeans]
      dsimp only
      rw [if_neg (by decide), if_neg (by decide)]
      dsimp only
      rw [show ([("a", [0]), ("b", [2])] : List (String × List Rat)).map Prod.snd
        = [[0], [2]] from rfl]
      rw [hc]
      rw [show (Option.getD (none : Option Nat) 100) = 100 from rfl,
        show (Option.getD (none : Option Rat) (1 / 10000)) = 1 / 10000 from rfl]
      rw [show ([[0], [2]] : List (List Rat)).length = 2 from rfl]
      rw [hloop]
      dsimp only
      simp [buildClusters, buildClustersStep, clusterAt, memberPairsAt, List.range_succ]
  have hinit : kMeansPlusPlusInit sq rng [[0], [2]] 1
      = [[[0], [2]].getD (⌊rng 0 * ((2 : Nat) : Rat)⌋).toNat []] := by
    rw [kMeansPlusPlusInit]
    simp [List.range']
  have hmean : centroidT [[0], [2]] = [(1 : Rat)] := by
    norm_num [centroidT, calculateCentroid, List.range_succ]
  rcases hfl with hf | hf
  · rw [hf] at hinit
    have h := hrun [0] (by simpa using hinit)
    refine ⟨h.1, Or.inl h.2, hmean, ?_⟩
    rw [h.2]
    norm_num
  · rw [hf] at hinit
    have h := hrun [2] (by simpa using hinit)
    refine ⟨h.1, Or.inr h.2, hmean, ?_⟩
    rw [h.2]
    norm_num

/-- C2 (witness): the theorem applied at the all-zero random stream; the
centroid of the single returned cluster is `[0]`, not the mean `[1]`. -/
theorem C2_evaluation_witness :
    (∀ i, 0 ≤ rngZero i ∧ rngZero i < 1)
    ∧ (kMeans ratSqrt rngZero [("a", [0]), ("b", [2])]
        { k := 1, maxIterations := none, tolerance := none,
          useKMeansPlusPlus := none }).clusters.map (fun c => c.centroid)
      ≠ [[(1 : Rat)]] := by
  have hb : ∀ i, 0 ≤ rngZero i ∧ rngZero i < 1 := fun i => by
    constructor <;> norm_num [rngZero]
  exact ⟨hb, (C2_evaluation ratSqrt rngZero hb).2.2.2⟩

/-! ## Claim C4 -/

theorem mem_foldl_cond_append {α β : Type} (q : α → Prop) [DecidablePred q]
    (f : α → β) (l : List α) (init : List β) (y : β) :
    y ∈ l.foldl (fun acc x => if q x then acc ++ [f x] else acc) init ↔
      y ∈ init ∨ ∃ x ∈ l, q x ∧ y = f x := by
  induction l generalizing init with
  | nil => simp
  | cons x xs ih =>
    rw [List.foldl_cons, ih]
    by_cases hq : q x
    · simp only [if_pos hq, List.mem_append, List.mem_singleton]
      constructor
      · rintro (⟨h | h⟩ | ⟨z, hz, hqz, hyz⟩)
        · exact Or.inl h
        · exact Or.inr ⟨x, List.mem_cons_self x xs, hq, h⟩
        · exact Or.inr ⟨z, List.mem_cons_of_mem x hz, hqz, hyz⟩
      · rintro (h | ⟨z, hz, hqz, hyz⟩)
        · exact Or.inl (Or.inl h)
        · rcases List.mem_cons.mp hz with rfl | hz'
          · exact Or.inl (Or.inr hyz)
          · exact Or.inr ⟨z, hz', hqz, hyz⟩
    · simp only [if_neg hq]
      constructor
      · rintro (h | ⟨z, hz, hqz, hyz⟩)
        · exact Or.inl h
        · exact Or.inr ⟨z, List.mem_cons_of_mem x hz, hqz, hyz⟩
      · rintro (h | ⟨z, hz, hqz, hyz⟩)
        · exact Or.inl h
        · rcases List.mem_cons.mp hz with rfl | hz'
          · exact absurd hqz hq
          · exact Or.inr ⟨z, hz', hqz, hyz⟩

theorem mem_buildClusters_foldl (sq : Rat → Rat) (ids : List String)
    (points : List (List Rat)) (assignments : List Nat)
    (centroids : List (List Rat)) (l : List Nat)
    (acc : List Cluster × List (String × String)) (cluster : Cluster) :
    cluster ∈ (l.foldl (buildClustersStep sq ids points assignments centroids) acc).1 ↔
      cluster ∈ acc.1 ∨ ∃ i ∈ l,
        (memberPairsAt ids points assignments i).length > 0
        ∧ cluster = clusterAt sq ids points assignments centroids i := by
  induction l generalizing acc with
  | nil => simp
  | cons j js ih =>
    rw [List.foldl_cons, ih]
    by_cases hj : (memberPairsAt ids points assignments j).length > 0
    · have hstep : (buildClustersStep sq ids points assignments centroids acc j).1
          = acc.1 ++ [clusterAt sq ids points assignments centroids j] := by
        rw [buildClustersStep]
        dsimp only
        rw [if_pos (by simpa using hj)]
      rw [hstep]
      simp only [List.mem_append, List.mem_singleton]
      constructor
      · rintro (⟨h | h⟩ | ⟨z, hz, hqz, hyz⟩)
        · exact Or.inl h
        · exact Or.inr ⟨j, List.mem_cons_self j js, hj, h⟩
        · exact Or.inr ⟨z, List.mem_cons_of_mem j hz, hqz, hyz⟩
      · rintro (h | ⟨z, hz, hqz, hyz⟩)
        · exact Or.inl (Or.inl h)
        · rcases List.mem_cons.mp hz with rfl | hz'
          · exact Or.inl (Or.inr hyz)
          · exact Or.inr ⟨z, hz', hqz, hyz⟩
    · have hstep : (buildClustersStep sq ids points assignments centroids acc j).1
          = acc.1 := by
        rw [buildClustersStep]
        dsimp only
        rw [if_neg (by simpa using hj)]
      rw [hstep]
      constructor
      · rintro (h | ⟨z, hz, hqz, hyz⟩)
        · exact Or.inl h
        · exact Or.inr ⟨z, List.mem_cons_of_mem j hz, hqz, hyz⟩
      · rintro (h | ⟨z, hz, hqz, hyz⟩)
        · exact Or.inl h
        · rcases List.mem_cons.mp hz with rfl | hz'
          · exact absurd hqz hj
          · exact Or.inr ⟨z, hz', hqz, hyz⟩

/-- Every member id of every cluster returned by `kMeans` is a key of the
input map. -/
theorem kMeans_cluster_members_mem (sq : Rat → Rat) (rng : Nat → Rat)
    (vectors : List (String × List Rat)) (options : KMeansOptions)
    (cluster : Cluster) (h : cluster ∈ (kMeans sq rng vectors options).clusters) :
    ∀ m ∈ cluster.members, m ∈ vectors.map Prod.fst := by
  intro m hm
  rw [kMeans] at h
  dsimp only at h
  by_cases h0 : vectors.length = 0
  · rw [if_pos h0] at h
    simp at h
  · rw [if_neg h0] at h
    by_cases hk : vectors.length < options.k
    · rw [if_pos hk] at h
      unfold createSinglePointClusters at h
      dsimp only at h
      obtain ⟨e, he, rfl⟩ := List.mem_map.mp h
      dsimp only at hm
      rcases List.mem_singleton.mp hm with rfl
      have : e.2 ∈ vectors := by
        have hsnd := List.enum_map_snd vectors
        exact hsnd ▸ List.mem_map_of_mem Prod.snd he
      exact List.mem_map_of_mem Prod.fst this
    · rw [if_neg hk] at h
      dsimp only at h
      rw [buildClusters, mem_buildClusters_foldl] at h
      rcases h with h | ⟨i, _, _, rfl⟩
      · simp at h
      · rw [clusterAt] at hm
        dsimp only at hm
        obtain ⟨pa, hpa, rfl⟩ := List.mem_map.mp hm
        have hzz := List.of_mem_filter hpa
        have hpair : pa ∈ ((vectors.map Prod.fst).zip (vectors.map Prod.snd)).zip
            ((kMeansLoop sq (vectors.map Prod.snd) options.k
              (options.tolerance.getD (1 / 10000))
              (options.maxIterations.getD 100)
              (kMeansPlusPlusInit sq rng (vectors.map Prod.snd) options.k)
              (List.replicate (vectors.map Prod.snd).length 0) 0).2.1) := by
          exact List.mem_of_mem_filter hpa
        have h1 := (List.mem_zip hpair).1
        exact (List.mem_zip h1).1

/-- A key present in an association list is found by `lookup`. -/
theorem lookup_isSome_of_mem {β : Type} (l : List (String × β)) (k : String)
    (h : k ∈ l.map Prod.fst) : ∃ v, l.lookup k = some v := by
  induction l with
  | nil => simp at h
  | cons p ps ih =>
    by_cases he : k == p.1
    · exact ⟨p.2, by simp [List.lookup, he]⟩
    · have h1 : k ∈ ps.map Prod.fst := by
        rw [List.map_cons] at h
        rcases List.mem_cons.mp h with h2 | h2
        · exact absurd (beq_iff_eq.mpr h2) (by simpa using he)
        · exact h2
      obtain ⟨v, hv⟩ := ih h1
      exact ⟨v, by simp [List.lookup, he, hv]⟩

/-- `filterMap` with an everywhere-defined function keeps the length. -/
theorem length_filterMap_of_isSome {α β : Type} (f : α → Option β) (l : List α)
    (h : ∀ x ∈ l, ∃ y, f x = some y) : (l.filterMap f).length = l.length := by
  induction l with
  | nil => rfl
  | cons x xs ih =>
    obtain ⟨y, hy⟩ := h x (List.mem_cons_self x xs)
    rw [List.filterMap_cons, hy, List.length_cons,
      ih (fun z hz => h z (List.mem_cons_of_mem x hz)), List.length_cons]

/-- The distance-ascending list of `findNearestNotes` has one entry per
cluster member when every member is a key of the embeddings map. -/
theorem findNearestNotes_length (sq : Rat → Rat) (cluster : Cluster)
    (embeddings : List (String × NoteEmbedding))
    (h : ∀ m ∈ cluster.members, m ∈ embeddings.map Prod.fst) :
    (findNearestNotes sq cluster embeddings).length = cluster.members.length := by
  rw [findNearestNotes]
  rw [((List.mergeSort_perm _ _).length_eq : _)]
  exact length_filterMap_of_isSome _ _ (fun m hm => by
    obtain ⟨v, hv⟩ := lookup_isSome_of_mem embeddings m (h m hm)
    exact ⟨_, by rw [hv]; rfl⟩)

/-- `findNearestNotes` is sorted ascending by distance. -/
theorem findNearestNotes_sorted (sq : Rat → Rat) (cluster : Cluster)
    (embeddings : List (String × NoteEmbedding)) :
    List.Pairwise (fun a b : NoteDistance => a.distance ≤ b.distance)
      (findNearestNotes sq cluster embeddings) := by
  rw [findNearestNotes]
  have := @List.sorted_mergeSort NoteDistance
    (fun a b : NoteDistance => decide (a.distance ≤ b.distance))
    (fun a b c hab hbc => by
      simp only [decide_eq_true_eq] at *
      exact le_trans hab hbc)
    (fun a b => by
      simp only [Bool.or_eq_true, decide_eq_true_eq]
      exact le_total a.distance b.distance)
    (cluster.members.filterMap (fun noteId =>
      (embeddings.lookup noteId).map (fun embedding =>
        { notePath := embedding.notePath,
          distance := euclidT sq embedding.vector cluster.centroid : NoteDistance })))
  exact this.imp (fun hab => by simpa using hab)

/-- `min 3 ⌈n / 5⌉` never exceeds `n`. -/
theorem min3_ceilFifth_le (n : Nat) : min 3 (ceilFifth n) ≤ n := by
  rcases Nat.eq_zero_or_pos n with rfl | hn
  · simp [ceilFifth]
  · rcases le_or_lt 3 n with h3 | h3
    · exact le_trans (min_le_left _ _) h3
    · refine le_trans (min_le_right _ _) ?_
      rw [ceilFifth]
      omega

/-- C4 (amended): every sparse region the detector emits carries the
distance-ascending nearest-member list (one entry per member) and a
boundary list consisting of the `min(3, ceil(0.2 * n))` farthest members,
the tail of the sorted nearest list; in particular the boundary list
never holds more than 3 members, a cap rather than the claimed floor. -/
theorem C4_boundary_list (sq : Rat → Rat) (rng : Nat → Rat)
    (embeddings : List (String × NoteEmbedding)) (options : SparseDetectionOptions)
    (region : SparseRegion)
    (h : region ∈ detectSparseRegionsExecute sq rng embeddings options) :
    region.nearestNotes.length = region.noteCount
    ∧ List.Pairwise (fun a b : NoteDistance => a.distance ≤ b.distance)
        region.nearestNotes
    ∧ region.boundaryNotes
        = (region.nearestNotes.drop
            (region.nearestNotes.length - min 3 (ceilFifth region.nearestNotes.length))).map
            (fun d => d.notePath)
    ∧ region.boundaryNotes.length = min 3 (ceilFifth region.noteCount)
    ∧ (3 ≤ region.noteCount → region.boundaryNotes.length ≤ 3) := by
  rw [detectSparseRegionsExecute] at h
  dsimp only at h
  by_cases h0 : embeddings.length = 0
  · rw [if_pos h0] at h
    simp at h
  rw [if_neg h0] at h
  by_cases h3 : (filterExcludedFolders embeddings (options.excludeFolders.getD [])).length < 3
  · rw [if_pos h3] at h
    simp at h
  rw [if_neg h3] at h
  have h' := List.mem_of_mem_take h
  rw [(List.mergeSort_perm _ _).mem_iff] at h'
  rw [mem_foldl_cond_append
    (fun cluster => calculateDensity sq cluster
      ((filterExcludedFolders embeddings (options.excludeFolders.getD [])).map
        (fun e => (e.1, e.2.vector))) < options.sparsityThreshold.getD (3 / 10))] at h'
  rcases h' with hfalse | ⟨cluster, hcl, _, rfl⟩
  · simp at hfalse
  dsimp only
  have hkeys : ∀ m ∈ cluster.members,
      m ∈ (filterExcludedFolders embeddings (options.excludeFolders.getD [])).map
        Prod.fst := by
    have hmem := kMeans_cluster_members_mem sq rng
      ((filterExcludedFolders embeddings (options.excludeFolders.getD [])).map
        (fun e => (e.1, e.2.vector))) _ cluster hcl
    intro m hm
    have := hmem m hm
    simpa [List.map_map, Function.comp] using this
  have hlen := findNearestNotes_length sq cluster
    (filterExcludedFolders embeddings (options.excludeFolders.getD [])) hkeys
  refine ⟨hlen, findNearestNotes_sorted sq cluster _, rfl, ?_, ?_⟩
  · rw [findBoundaryNotes, List.length_map, List.length_drop, hlen]
    have hb := min3_ceilFifth_le cluster.members.length
    have hb3 : min 3 (ceilFifth cluster.members.length) ≤ 3 := min_le_left _ _
    omega
  · intro _
    rw [findBoundaryNotes, List.length_map, List.length_drop, hlen]
    have hb := min3_ceilFifth_le cluster.members.length
    have hb3 : min 3 (ceilFifth cluster.members.length) ≤ 3 := min_le_left _ _
    omega

/-- Concrete 4-note corpus for the C4 counterexample: one note at the
origin, two at 4, one at 8 on a line. -/
def c4Embeddings : List (String × NoteEmbedding) :=
  [("a", ⟨"pa", [0], "h"⟩), ("b", ⟨"pb", [4], "h"⟩),
   ("c", ⟨"pc", [4], "h"⟩), ("d", ⟨"pd", [8], "h"⟩)]

/-- The single cluster `kMeans` produces on the C4 corpus with `k = 1`
(centroid = the k-means++ random pick, the first point). -/
def c4Cluster : Cluster :=
  { id := "cluster-0", centroid := [0], members := ["a", "b", "c", "d"],
    variance := svcCalculateVariance ratSqrt [[0], [4], [4], [8]] [0] }

theorem ratSqrt_zero : ratSqrt 0 = 0 := by
  simp only [ratSqrt]
  rw [show ((0 : Rat)).num = 0 from rfl, show ((0 : Rat)).den = 1 from rfl]
  rw [show Int.toNat 0 = 0 from rfl]
  rw [show natSqrtLin 0 = 0 from rfl, show natSqrtLin 1 = 1 from rfl]
  norm_num

theorem ratSqrt_sixteen : ratSqrt 16 = 4 := by
  simp only [ratSqrt, Rat.num_ofNat, Rat.den_ofNat]
  rw [show Int.toNat (OfNat.ofNat 16) = 16 from rfl]
  rw [show natSqrtLin 16 = 4 from rfl, show natSqrtLin 1 = 1 from rfl]
  norm_num

theorem ratSqrt_sixtyfour : ratSqrt 64 = 8 := by
  simp only [ratSqrt, Rat.num_ofNat, Rat.den_ofNat]
  rw [show Int.toNat (OfNat.ofNat 64) = 64 from rfl]
  rw [show natSqrtLin 64 = 8 from rfl, show natSqrtLin 1 = 1 from rfl]
  norm_num

theorem c4_init : kMeansPlusPlusInit ratSqrt rngZero [[0], [4], [4], [8]] 1 = [[0]] := by
  rw [kMeansPlusPlusInit]
  simp [List.range', rngZero]

theorem c4_loop : kMeansLoop ratSqrt [[0], [4], [4], [8]] 1 (1 / 10000) 100 [[0]]
    (List.replicate 4 0) 0 = ([[0]], List.replicate 4 0, 1) := by
  have h100 : (100 : Nat) = 99 + 1 := rfl
  rw [h100, kMeansLoop_converged]
  rfl

theorem c4_clusters (kopts : KMeansOptions) (hk : kopts.k = 1)
    (hmi : kopts.maxIterations = some 100) (ht : kopts.tolerance = some (1 / 10000)) :
    (kMeans ratSqrt rngZero (c4Embeddings.map (fun e => (e.1, e.2.vector)))
      kopts).clusters = [c4Cluster] := by
  rw [kMeans]
  dsimp only
  rw [hk, hmi, ht]
  rw [if_neg (by decide), if_neg (by decide)]
  dsimp only
  rw [show (c4Embeddings.map (fun e => (e.1, e.2.vector))).map Prod.snd
    = [[0], [4], [4], [8]] from rfl]
  rw [c4_init]
  rw [show (Option.getD (some 100) 100) = 100 from rfl,
    show (Option.getD (some (1 / 10000) : Option Rat) (1 / 10000)) = 1 / 10000 from rfl]
  rw [show ([[0], [4], [4], [8]] : List (List Rat)).length = 4 from rfl]
  rw [c4_loop]
  rfl

theorem c4_centroid : centroidT [[0], [4], [4], [8]] = [4] := by
  norm_num [centroidT, calculateCentroid, List.range_succ]

theorem c4_d00 : euclidT ratSqrt [0] [0] = 0 := by
  simp only [euclidT]
  norm_num [ratSqrt_zero]

theorem c4_d40 : euclidT ratSqrt [4] [0] = 4 := by
  simp only [euclidT]
  norm_num [ratSqrt_sixteen]

theorem c4_d80 : euclidT ratSqrt [8] [0] = 8 := by
  simp only [euclidT]
  norm_num [ratSqrt_sixtyfour]

theorem c4_d04 : euclidT ratSqrt [0] [4] = 4 := by
  simp only [euclidT]
  norm_num [ratSqrt_sixteen]

theorem c4_d44 : euclidT ratSqrt [4] [4] = 0 := by
  simp only [euclidT]
  norm_num [ratSqrt_zero]

theorem c4_d84 : euclidT ratSqrt [8] [4] = 4 := by
  simp only [euclidT]
  norm_num [ratSqrt_sixteen]

theorem c4_density : calculateDensity ratSqrt c4Cluster
    (c4Embeddings.map (fun e => (e.1, e.2.vector))) = 0 := by
  rw [calculateDensity]
  rw [if_neg (by decide)]
  rw [show (c4Embeddings.map (fun e => (e.1, e.2.vector)))
    = [("a", [0]), ("b", [4]), ("c", [4]), ("d", [8])] from rfl]
  dsimp only
  rw [show ([("a", [0]), ("b", [4]), ("c", [4]), ("d", [8])]
      : List (String × List Rat)).map Prod.snd = [[0], [4], [4], [8]] from rfl]
  rw [c4_centroid]
  simp only [c4Cluster, List.map_cons, List.map_nil, List.sum_cons, List.sum_nil,
    List.length_cons, List.length_nil,
    show (List.lookup "a" [("a", [0]), ("b", [4]), ("c", [4]), ("d", [8])]
      : Option (List Rat)) = some [0] from rfl,
    show (List.lookup "b" [("a", [0]), ("b", [4]), ("c", [4]), ("d", [8])]
      : Option (List Rat)) = some [4] from rfl,
    show (List.lookup "c" [("a", [0]), ("b", [4]), ("c", [4]), ("d", [8])]
      : Option (List Rat)) = some [4] from rfl,
    show (List.lookup "d" [("a", [0]), ("b", [4]), ("c", [4]), ("d", [8])]
      : Option (List Rat)) = some [8] from rfl]
  norm_num [c4_d00, c4_d40, c4_d80, c4_d04, c4_d44, c4_d84]

theorem c4_nearest : findNearestNotes ratSqrt c4Cluster c4Embeddings
    = [⟨"pa", 0⟩, ⟨"pb", 4⟩, ⟨"pc", 4⟩, ⟨"pd", 8⟩] := by
  rw [findNearestNotes]
  simp only [c4Cluster, List.filterMap_cons, List.filterMap_nil,
    show (List.lookup "a" c4Embeddings) = some ⟨"pa", [0], "h"⟩ from rfl,
    show (List.lookup "b" c4Embeddings) = some ⟨"pb", [4], "h"⟩ from rfl,
    show (List.lookup "c" c4Embeddings) = some ⟨"pc", [4], "h"⟩ from rfl,
    show (List.lookup "d" c4Embeddings) = some ⟨"pd", [8], "h"⟩ from rfl,
    Option.map_some]
  norm_num [c4_d00, c4_d40, c4_d80]
  simp [List.mergeSort]
  norm_num

theorem c4_boundary : findBoundaryNotes ratSqrt c4Cluster c4Embeddings = ["pd"] := by
  rw [findBoundaryNotes, c4_nearest]
  rfl

/-- The single sparse region the detector emits on the C4 corpus. -/
def c4Region : SparseRegion :=
  { id := "cluster-0", centroid := [0], density := 0,
    nearestNotes := [⟨"pa", 0⟩, ⟨"pb", 4⟩, ⟨"pc", 4⟩, ⟨"pd", 8⟩],
    inferredTopic := none, boundaryNotes := ["pd"], noteCount := 4 }

theorem c4_detectorRun :
    detectSparseRegionsExecute ratSqrt rngZero c4Embeddings
      { clusterCount := some 1, sparsityThreshold := none, maxRegions := none,
        excludeFolders := none } = [c4Region] := by
  rw [detectSparseRegionsExecute]
  dsimp only
  rw [if_neg (by decide)]
  rw [show filterExcludedFolders c4Embeddings
    ((none : Option (List String)).getD []) = c4Embeddings from rfl]
  rw [if_neg (by decide)]
  rw [c4_clusters _ rfl rfl rfl]
  simp only [List.foldl_cons, List.foldl_nil]
  rw [show (Option.getD (none : Option Rat) (3 / 10)) = 3 / 10 from rfl]
  rw [c4_density]
  rw [if_pos (by norm_num : (0 : Rat) < 3 / 10)]
  simp only [List.nil_append]
  rw [c4_nearest, c4_boundary]
  simp [List.mergeSort, c4Cluster, c4Region]

/-- C4 (counterexample): on the 4-note corpus with an explicit cluster
count of 1, the detector emits one sparse region with 4 members — at
least 3, so the claim promises at least 3 boundary members — but the
boundary-member list holds a single entry (`min(3, ceil(0.2 * 4)) = 1`). -/
theorem C4_counterexample :
    ((detectSparseRegionsExecute ratSqrt rngZero c4Embeddings
      { clusterCount := some 1, sparsityThreshold := none, maxRegions := none,
        excludeFolders := none }).map (fun r => (r.noteCount, r.boundaryNotes)))
      = [(4, ["pd"])]
    ∧ (3 : Nat) ≤ 4
    ∧ ¬ ((3 : Nat) ≤ 1) := by
  refine ⟨?_, by decide, by decide⟩
  rw [c4_detectorRun]
  rfl

/-- C4 (witness): the amended theorem applied to the concrete emitted
region of the counterexample corpus. -/
theorem C4_boundary_list_witness :
    (c4Region ∈ detectSparseRegionsExecute ratSqrt rngZero c4Embeddings
      { clusterCount := some 1, sparsityThreshold := none, maxRegions := none,
        excludeFolders := none })
    ∧ c4Region.nearestNotes.length = c4Region.noteCount
    ∧ c4Region.boundaryNotes.length = min 3 (ceilFifth c4Region.noteCount) := by
  have hmem : c4Region ∈ detectSparseRegionsExecute ratSqrt rngZero c4Embeddings
      { clusterCount := some 1, sparsityThreshold := none, maxRegions := none,
        excludeFolders := none } := by
    rw [c4_detectorRun]
    exact List.mem_singleton.mpr rfl
  have h := C4_boundary_list ratSqrt rngZero c4Embeddings _ c4Region hmem
  exact ⟨hmem, h.1, h.2.2.2.1⟩

/-! ## Claim C7 -/

/-- Two undefined links for the C7 counterexample: `Beta` has many total
mentions but only two outside the excluded folder `X/`. -/
def c7Links : List UndefinedLink :=
  [{ linkText := "Alpha", sources := ["n1", "n2", "n3", "n4", "n5"], count := 5 },
   { linkText := "Beta", sources := ["X/a", "X/b", "n6", "n7"], count := 10 }]

/-- The C7 link-graph reader with no co-occurrence data. -/
def c7Reader : LinkGraphReaderData :=
  { undefinedLinks := c7Links, coOccurring := fun _ _ => [] }

/-- C7 (counterexample): with fixed `maxConcepts = 1`,
`excludeFolders = ["X/"]` and no co-occurrence analysis, the finder with
`minMentions = 5` returns `Alpha` alone; lowering `minMentions` to `2`
admits `Beta` (10 total mentions, only 2 non-excluded sources), which
outranks `Alpha` in the mention-count sort and evicts it from the
truncated result: `Alpha` disappears although the threshold was lowered. -/
theorem C7_counterexample :
    ((findUndefinedConceptsExecute c7Reader
      { minMentions := some 5, maxConcepts := some 1, analyzeCoOccurrence := some false,
        excludeFolders := some ["X/"] }).map (fun c => c.name)) = ["Alpha"]
    ∧ ((findUndefinedConceptsExecute c7Reader
      { minMentions := some 2, maxConcepts := some 1, analyzeCoOccurrence := some false,
        excludeFolders := some ["X/"] }).map (fun c => c.name)) = ["Beta"]
    ∧ (2 : Nat) < 5 := by
  refine ⟨?_, ?_, by decide⟩
  · simp only [findUndefinedConceptsExecute, Option.getD_some, c7Reader, c7Links]
    rw [show filterLinks
      [{ linkText := "Alpha", sources := ["n1", "n2", "n3", "n4", "n5"], count := 5 },
       { linkText := "Beta", sources := ["X/a", "X/b", "n6", "n7"], count := 10 }] 5 ["X/"]
      = [{ linkText := "Alpha", sources := ["n1", "n2", "n3", "n4", "n5"], count := 5 }]
      from by decide]
    simp [List.mergeSort]
  · simp only [findUndefinedConceptsExecute, Option.getD_some, c7Reader, c7Links]
    rw [show filterLinks
      [{ linkText := "Alpha", sources := ["n1", "n2", "n3", "n4", "n5"], count := 5 },
       { linkText := "Beta", sources := ["X/a", "X/b", "n6", "n7"], count := 10 }] 2 ["X/"]
      = [{ linkText := "Alpha", sources := ["n1", "n2", "n3", "n4", "n5"], count := 5 },
         { linkText := "Beta", sources := ["X/a", "X/b", "n6", "n7"], count := 10 }]
      from by decide]
    simp [List.mergeSort]

/-- The per-link filter of the finder only loosens when the mention
threshold drops. -/
theorem filterLinks_mono (links : List UndefinedLink) (m m' : Nat)
    (ex : List String) (hle : m' ≤ m) (l : UndefinedLink)
    (hl : l ∈ filterLinks links m ex) : l ∈ filterLinks links m' ex := by
  simp only [filterLinks, List.mem_filter] at hl ⊢
  refine ⟨hl.1, ?_⟩
  have hp := hl.2
  by_cases h1 : l.count < m
  · rw [if_pos h1] at hp
    exact absurd hp (by simp)
  · rw [if_neg h1] at hp
    by_cases h2 : ex.length > 0 ∧ (l.sources.filter (fun source =>
        ¬ (ex.any fun folder => strStartsWith source folder))).length < m
    · rw [if_pos h2] at hp
      exact absurd hp (by simp)
    · rw [if_neg h2] at hp
      rw [if_neg (by omega : ¬ l.count < m')]
      rw [if_neg ?_]
      · exact hp
      · intro hcon
        exact h2 ⟨hcon.1, by omega⟩

/-- C7 (amended): with the other options fixed, and provided the run at
the lower threshold is not truncated (its surviving-link count stays
within `maxConcepts`), every concept returned at `minMentions = m` is
also returned at any lower threshold `m' < m`. (The unamended claim fails
when truncation interacts with the excluded-folder source filter, as the
counterexample shows.) -/
theorem C7_minMentions_monotone (reader : LinkGraphReaderData) (m m' maxC : Nat)
    (coOc : Option Bool) (ex : List String) (hlt : m' < m)
    (hnotrunc : (filterLinks reader.undefinedLinks m' ex).length ≤ maxC) :
    ∀ c ∈ findUndefinedConceptsExecute reader
      { minMentions := some m, maxConcepts := some maxC,
        analyzeCoOccurrence := coOc, excludeFolders := some ex },
      c ∈ findUndefinedConceptsExecute reader
      { minMentions := some m', maxConcepts := some maxC,
        analyzeCoOccurrence := coOc, excludeFolders := some ex } := by
  intro c hc
  simp only [findUndefinedConceptsExecute, Option.getD_some] at hc ⊢
  have hc1 := (List.mergeSort_perm _ _).mem_iff.mp (List.mem_of_mem_take hc)
  obtain ⟨l, hl, rfl⟩ := List.mem_map.mp hc1
  have hl' := filterLinks_mono reader.undefinedLinks m m' ex (le_of_lt hlt) l hl
  have hmem2 := List.mem_map_of_mem (fun link =>
    ({ name := link.linkText
       mentionCount := link.count
       mentionedIn := link.sources
       relatedConcepts :=
         if coOc.getD true then reader.coOccurring link.linkText 2 else []
       suggestedContent := none } : UndefinedConcept)) hl'
  rw [List.take_of_length_le]
  · exact (List.mergeSort_perm _ _).mem_iff.mpr hmem2
  · rw [(List.mergeSort_perm _ _).length_eq, List.length_map]
    exact hnotrunc

/-- C7 (witness): the amended theorem applied to the concrete reader with
thresholds 3 and 2 and no truncation. -/
theorem C7_minMentions_monotone_witness :
    ((2 : Nat) < 3 ∧ (filterLinks c7Links 2 []).length ≤ 50)
    ∧ ∀ c ∈ findUndefinedConceptsExecute c7Reader
        { minMentions := some 3, maxConcepts := some 50,
          analyzeCoOccurrence := some false, excludeFolders := some [] },
      c ∈ findUndefinedConceptsExecute c7Reader
        { minMentions := some 2, maxConcepts := some 50,
          analyzeCoOccurrence := some false, excludeFolders := some [] } :=
  ⟨⟨by decide, by decide⟩,
   C7_minMentions_monotone c7Reader 3 2 50 (some false) [] (by decide) (by decide)⟩

/-! ## Claim C1 -/

/-- Two-document corpus for C1: `Foo` referenced twice in `A.md` and once
in `B.md`, with no document resolving `Foo`. -/
def c1Files : List VaultFile :=
  [{ path := "A.md", content := "[[Foo]] and [[Foo]]" },
   { path := "B.md", content := "[[Foo]]" }]

/-- C1 (evaluation at the failing input): the corpus contains 3 raw
occurrences of the reference `Foo` across 2 documents, yet the
undefined-reference record carries `count = 2` — `extractLinks`
deduplicates the links of each document before counting, so `count`
counts mentioning documents, not occurrences, contradicting the claim
(and the interface documentation of `UndefinedLink.count`, which calls it
the number of times the link appears). The sources list is the expected
deduplicated document set. -/
theorem C1_evaluation :
    ((buildGraph c1Files []).undefinedLinks.lookup "Foo")
      = some { linkText := "Foo", sources := ["A.md", "B.md"], count := 2 }
    ∧ ((c1Files.map (fun f =>
        (scanWikiLinks f.content.data.length f.content.data).count "Foo")).sum) = 3
    ∧ (2 : Nat) ≠ 3 := by decide

/-! ## Orchestrator lemmas (claims C5, C9, C10) -/

theorem cancelFlagAt_mono (ca : Option Nat) (i j : Nat) (hij : i ≤ j)
    (h : cancelFlagAt ca i = true) : cancelFlagAt ca j = true := by
  cases ca with
  | none => simp [cancelFlagAt] at h
  | some n =>
    simp only [cancelFlagAt, decide_eq_true_eq] at h ⊢
    omega

theorem enrichRegionsLoop_tick_le (llm : LLMData) (flag : Nat → Bool)
    (l : List SparseRegion) (t : Nat) :
    t ≤ (enrichSparseRegionsLoop llm flag l t).2 := by
  induction l generalizing t with
  | nil => simp [enrichSparseRegionsLoop]
  | cons r rs ih =>
    rw [enrichSparseRegionsLoop]
    by_cases hf : flag t
    · simp [hf]
    · simp only [hf, if_false, Bool.false_eq_true]
      have := ih (t + 1)
      omega

theorem enrichConceptsLoop_tick_le (llm : LLMData) (flag : Nat → Bool)
    (l : List UndefinedConcept) (t : Nat) :
    t ≤ (enrichUndefinedConceptsLoop llm flag l t).2 := by
  induction l generalizing t with
  | nil => simp [enrichUndefinedConceptsLoop]
  | cons r rs ih =>
    rw [enrichUndefinedConceptsLoop]
    by_cases hf : flag t
    · simp [hf]
    · simp only [hf, if_false, Bool.false_eq_true]
      have := ih (t + 1)
      omega

theorem enrichRegionsLoop_no_cancel (llm : LLMData) (flag : Nat → Bool)
    (hmono : ∀ i j, i ≤ j → flag i = true → flag j = true)
    (l : List SparseRegion) (t : Nat)
    (hf : flag (enrichSparseRegionsLoop llm flag l t).2 = false) :
    enrichSparseRegionsLoop llm flag l t
      = (l.map (enrichRegionItem llm), t + l.length) := by
  induction l generalizing t with
  | nil => simp [enrichSparseRegionsLoop]
  | cons r rs ih =>
    rw [enrichSparseRegionsLoop] at hf ⊢
    by_cases hft : flag t
    · rw [if_pos hft] at hf
      have := hmono t (t + 1) (by omega) hft
      rw [this] at hf
      simp at hf
    · rw [if_neg (by simp [hft])] at hf ⊢
      have ihr := ih (t + 1) (by
        have hle := enrichRegionsLoop_tick_le llm flag rs (t + 1)
        exact hf)
      rw [ihr]
      simp [List.length_cons]
      omega

theorem enrichConceptsLoop_no_cancel (llm : LLMData) (flag : Nat → Bool)
    (hmono : ∀ i j, i ≤ j → flag i = true → flag j = true)
    (l : List UndefinedConcept) (t : Nat)
    (hf : flag (enrichUndefinedConceptsLoop llm flag l t).2 = false) :
    enrichUndefinedConceptsLoop llm flag l t
      = (l.map (enrichConceptItem llm), t + l.length) := by
  induction l generalizing t with
  | nil => simp [enrichUndefinedConceptsLoop]
  | cons r rs ih =>
    rw [enrichUndefinedConceptsLoop] at hf ⊢
    by_cases hft : flag t
    · rw [if_pos hft] at hf
      have := hmono t (t + 1) (by omega) hft
      rw [this] at hf
      simp at hf
    · rw [if_neg (by simp [hft])] at hf ⊢
      have ihr := ih (t + 1) (by exact hf)
      rw [ihr]
      simp [List.length_cons]
      omega

theorem analyzeGapsExecute_none (sq : Rat → Rat) (rng : Nat → Rat)
    (er : EmbeddingReaderData) (lg : LinkGraphReaderData) (llm : LLMData)
    (prior : Bool) (opts : AnalyzeOptions) (h : er.isAvailable = true) :
    analyzeGapsExecute sq rng er lg llm prior none opts
      = .ok (completedGapReport sq rng er lg llm opts) := by
  rw [analyzeGapsExecute, completedGapReport]
  dsimp only
  rw [if_neg (by simp [h])]
  rfl

theorem enrichPhase_cases (llm : LLMData) (ca : Option Nat)
    (regions : List SparseRegion) (concepts : List UndefinedConcept) :
    cancelFlagAt ca (enrichUndefinedConceptsLoop llm (cancelFlagAt ca) concepts
      (enrichSparseRegionsLoop llm (cancelFlagAt ca) regions 3).2).2 = true
    ∨ (cancelFlagAt ca (enrichUndefinedConceptsLoop llm (cancelFlagAt ca) concepts
        (enrichSparseRegionsLoop llm (cancelFlagAt ca) regions 3).2).2 = false
      ∧ enrichSparseRegionsLoop llm (cancelFlagAt ca) regions 3
          = (regions.map (enrichRegionItem llm), 3 + regions.length)
      ∧ enrichUndefinedConceptsLoop llm (cancelFlagAt ca) concepts
          (enrichSparseRegionsLoop llm (cancelFlagAt ca) regions 3).2
        = (concepts.map (enrichConceptItem llm),
           (enrichSparseRegionsLoop llm (cancelFlagAt ca) regions 3).2
             + concepts.length)) := by
  by_cases hfe : cancelFlagAt ca (enrichUndefinedConceptsLoop llm (cancelFlagAt ca)
      concepts (enrichSparseRegionsLoop llm (cancelFlagAt ca) regions 3).2).2 = true
  · exact Or.inl hfe
  · right
    have hfC := eq_false_of_ne_true hfe
    have hC := enrichConceptsLoop_no_cancel llm (cancelFlagAt ca)
      (cancelFlagAt_mono ca) concepts _ hfC
    have hfR : cancelFlagAt ca
        (enrichSparseRegionsLoop llm (cancelFlagAt ca) regions 3).2 = false := by
      rcases hb : cancelFlagAt ca
          (enrichSparseRegionsLoop llm (cancelFlagAt ca) regions 3).2 with _ | _
      · rfl
      · exfalso
        have hle := enrichConceptsLoop_tick_le llm (cancelFlagAt ca) concepts
          (enrichSparseRegionsLoop llm (cancelFlagAt ca) regions 3).2
        have := cancelFlagAt_mono ca _ _ hle hb
        rw [this] at hfC
        exact absurd hfC (by simp)
    have hR := enrichRegionsLoop_no_cancel llm (cancelFlagAt ca)
      (cancelFlagAt_mono ca) regions 3 hfR
    exact ⟨hfC, hR, hC⟩

theorem analyzeGapsExecute_dichotomy (sq : Rat → Rat) (rng : Nat → Rat)
    (er : EmbeddingReaderData) (lg : LinkGraphReaderData) (llm : LLMData)
    (prior : Bool) (ca : Option Nat) (opts : AnalyzeOptions)
    (h : er.isAvailable = true) :
    analyzeGapsExecute sq rng er lg llm prior ca opts = .ok (createEmptyReport opts)
    ∨ analyzeGapsExecute sq rng er lg llm prior ca opts
        = .ok (completedGapReport sq rng er lg llm opts) := by
  rw [analyzeGapsExecute]
  dsimp only
  rw [if_neg (by simp [h])]
  by_cases h0 : cancelFlagAt ca 0 = true
  · rw [if_pos h0]
    exact Or.inl rfl
  rw [if_neg h0]
  by_cases h1 : cancelFlagAt ca 1 = true
  · rw [if_pos h1]
    exact Or.inl rfl
  rw [if_neg h1]
  by_cases h2 : cancelFlagAt ca 2 = true
  · rw [if_pos h2]
    exact Or.inl rfl
  rw [if_neg h2]
  by_cases hllm : (opts.useLLM.getD true) = true ∧ llm.isAvailable = true
  · rw [if_pos hllm]
    dsimp only
    rcases enrichPhase_cases llm ca
      (detectSparseRegionsExecute sq rng er.allEmbeddings
        { clusterCount := opts.clusterCount
          sparsityThreshold := some (opts.sparsityThreshold.getD (3 / 10))
          maxRegions := none
          excludeFolders := some (opts.excludeFolders.getD []) })
      ((findUndefinedConceptsExecute lg
        { minMentions := some (opts.minMentions.getD 2)
          maxConcepts := none
          analyzeCoOccurrence := none
          excludeFolders := some (opts.excludeFolders.getD []) }).take 10)
      with hfe | ⟨hfC, hR, hC⟩
    · rw [if_pos hfe]
      exact Or.inl rfl
    · rw [if_neg (by simp [hfC])]
      right
      rw [completedGapReport]
      dsimp only
      rw [if_pos hllm]
      dsimp only
      have hRc := enrichRegionsLoop_no_cancel llm (fun _ => false)
        (fun i j _ hx => by simp at hx)
        (detectSparseRegionsExecute sq rng er.allEmbeddings
          { clusterCount := opts.clusterCount
            sparsityThreshold := some (opts.sparsityThreshold.getD (3 / 10))
            maxRegions := none
            excludeFolders := some (opts.excludeFolders.getD []) }) 3 rfl
      have hCc := enrichConceptsLoop_no_cancel llm (fun _ => false)
        (fun i j _ hx => by simp at hx)
        ((findUndefinedConceptsExecute lg
          { minMentions := some (opts.minMentions.getD 2)
            maxConcepts := none
            analyzeCoOccurrence := none
            excludeFolders := some (opts.excludeFolders.getD []) }).take 10)
        (enrichSparseRegionsLoop llm (fun _ => false)
          (detectSparseRegionsExecute sq rng er.allEmbeddings
            { clusterCount := opts.clusterCount
              sparsityThreshold := some (opts.sparsityThreshold.getD (3 / 10))
              maxRegions := none
              excludeFolders := some (opts.excludeFolders.getD []) }) 3).2 rfl
      rw [hC, hR, hCc, hRc]
  · rw [if_neg hllm]
    dsimp only
    by_cases h3 : cancelFlagAt ca 3 = true
    · rw [if_pos h3]
      exact Or.inl rfl
    · rw [if_neg h3]
      right
      rw [completedGapReport]
      dsimp only
      rw [if_neg hllm]

theorem analyzeGaps_cancel_small (sq : Rat → Rat) (rng : Nat → Rat)
    (er : EmbeddingReaderData) (lg : LinkGraphReaderData) (llm : LLMData)
    (prior : Bool) (opts : AnalyzeOptions) (n : Nat)
    (h : er.isAvailable = true) (hn : n ≤ 2) :
    analyzeGapsExecute sq rng er lg llm prior (some n) opts
      = .ok (createEmptyReport opts) := by
  interval_cases n
  · rw [analyzeGapsExecute]
    dsimp only
    rw [if_neg (by simp [h]), if_pos (by decide)]
  · rw [analyzeGapsExecute]
    dsimp only
    rw [if_neg (by simp [h]), if_neg (by decide), if_pos (by decide)]
  · rw [analyzeGapsExecute]
    dsimp only
    rw [if_neg (by simp [h]), if_neg (by decide), if_neg (by decide),
      if_pos (by decide)]


/-! ## Claim C5 -/

/-- C5 (confirmed): with the embedding store available, the empty report
carries zero counts and empty lists; a cancellation observed at any of
the loading, clustering or link-analysis boundaries (in particular right
after clustering, before link analysis) makes `execute` return exactly
that empty report; and for every cancellation schedule the result is
either the empty report or the fully completed report — never a
partially filled one. -/
theorem C5_cancellation (sq : Rat → Rat) (rng : Nat → Rat)
    (er : EmbeddingReaderData) (lg : LinkGraphReaderData) (llm : LLMData)
    (prior : Bool) (opts : AnalyzeOptions) (h : er.isAvailable = true) :
    ((createEmptyReport opts).totalNotesAnalyzed = 0
      ∧ (createEmptyReport opts).totalEmbeddings = 0
      ∧ (createEmptyReport opts).sparseRegions = []
      ∧ (createEmptyReport opts).undefinedConcepts = []
      ∧ (createEmptyReport opts).gaps = [])
    ∧ (∀ n, n ≤ 2 → analyzeGapsExecute sq rng er lg llm prior (some n) opts
        = .ok (createEmptyReport opts))
    ∧ ∀ ca, analyzeGapsExecute sq rng er lg llm prior ca opts
          = .ok (createEmptyReport opts)
        ∨ analyzeGapsExecute sq rng er lg llm prior ca opts
          = .ok (completedGapReport sq rng er lg llm opts) :=
  ⟨⟨rfl, rfl, rfl, rfl, rfl⟩,
   fun n hn => analyzeGaps_cancel_small sq rng er lg llm prior opts n h hn,
   fun ca => analyzeGapsExecute_dichotomy sq rng er lg llm prior ca opts h⟩

/-- Concrete collaborators for the orchestrator witnesses. -/
def w5Er : EmbeddingReaderData :=
  { isAvailable := true, embeddingCount := 7, allEmbeddings := [] }

/-- Concrete link graph for the orchestrator witnesses: one undefined
reference mentioned three times across two documents. -/
def w5Lg : LinkGraphReaderData :=
  { undefinedLinks := [{ linkText := "Foo", sources := ["A.md", "B.md"], count := 3 }],
    coOccurring := fun _ _ => [] }

/-- An unavailable suggestion service for the orchestrator witnesses. -/
def w5Llm : LLMData :=
  { isAvailable := false, inferTopic := fun _ => "",
    describeUndefinedConcept := fun _ _ => none }

/-- All-default analyze options for the orchestrator witnesses. -/
def w5Opts : AnalyzeOptions :=
  { clusterCount := none, minMentions := none, sparsityThreshold := none,
    excludeFolders := none, useLLM := none, maxGaps := none }

/-- C5 (witness): the theorem applied to concrete collaborators with a
cancellation that fires at the post-clustering boundary. -/
theorem C5_cancellation_witness :
    w5Er.isAvailable = true
    ∧ analyzeGapsExecute ratSqrt rngZero w5Er w5Lg w5Llm false (some 1) w5Opts
      = .ok (createEmptyReport w5Opts) :=
  ⟨rfl, (C5_cancellation ratSqrt rngZero w5Er w5Lg w5Llm false w5Opts rfl).2.1 1
    (by decide)⟩

/-! ## Claim C10 -/

/-- C10 (confirmed): `execute` clears the cancellation flag on entry, so
the result never depends on the flag state a prior `cancel()` left
behind; with no further cancel during the run it proceeds through all
phases and returns the completed report, whose note and embedding counts
echo the embedding store rather than the zeroed template. -/
theorem C10_cancel_reset (sq : Rat → Rat) (rng : Nat → Rat)
    (er : EmbeddingReaderData) (lg : LinkGraphReaderData) (llm : LLMData)
    (ca : Option Nat) (opts : AnalyzeOptions) (h : er.isAvailable = true) :
    (∀ b₁ b₂ : Bool, analyzeGapsExecute sq rng er lg llm b₁ ca opts
      = analyzeGapsExecute sq rng er lg llm b₂ ca opts)
    ∧ analyzeGapsExecute sq rng er lg llm true none opts
      = .ok (completedGapReport sq rng er lg llm opts)
    ∧ (completedGapReport sq rng er lg llm opts).totalNotesAnalyzed
      = er.embeddingCount
    ∧ (completedGapReport sq rng er lg llm opts).totalEmbeddings
      = er.embeddingCount :=
  ⟨fun _ _ => rfl, analyzeGapsExecute_none sq rng er lg llm true opts h, rfl, rfl⟩

/-- C10 (witness): the theorem at the concrete collaborators; a run
started after a prior cancel still produces the completed report with
the count of 7 notes coming from the store. -/
theorem C10_cancel_reset_witness :
    w5Er.isAvailable = true
    ∧ analyzeGapsExecute ratSqrt rngZero w5Er w5Lg w5Llm true none w5Opts
      = .ok (completedGapReport ratSqrt rngZero w5Er w5Lg w5Llm w5Opts)
    ∧ (completedGapReport ratSqrt rngZero w5Er w5Lg w5Llm w5Opts).totalNotesAnalyzed
      = 7 :=
  ⟨rfl,
   (C10_cancel_reset ratSqrt rngZero w5Er w5Lg w5Llm none w5Opts rfl).2.1,
   (C10_cancel_reset ratSqrt rngZero w5Er w5Lg w5Llm none w5Opts rfl).2.2.1⟩

/-! ## Claim C9 -/

theorem gapCompareCore_trans : ∀ s1 t1 s2 t2 s3 t3,
    gapCompareCore s1 t1 s2 t2 ≤ 0 → gapCompareCore s2 t2 s3 t3 ≤ 0 →
    gapCompareCore s1 t1 s3 t3 ≤ 0 := by decide

theorem gapCompareCore_total : ∀ s1 t1 s2 t2,
    gapCompareCore s1 t1 s2 t2 ≤ 0 ∨ gapCompareCore s2 t2 s1 t1 ≤ 0 := by decide

theorem gapCompareCore_interp : ∀ s1 t1 s2 t2,
    gapCompareCore s1 t1 s2 t2 ≤ 0 →
    (severityOrder s2 ≤ severityOrder s1
      ∧ (severityOrder s2 = severityOrder s1 →
          t2 = GapType.undefined_concept → t1 = GapType.undefined_concept)) := by decide

theorem sortGaps_facts (regions : List SparseRegion)
    (concepts : List UndefinedConcept) (maxGaps : Nat) :
    ((sortGapsByPriority (createKnowledgeGaps regions concepts)).take maxGaps).length
      ≤ maxGaps
    ∧ List.Pairwise (fun a b : KnowledgeGap =>
        severityOrder b.severity ≤ severityOrder a.severity
        ∧ (severityOrder b.severity = severityOrder a.severity →
            b.type = GapType.undefined_concept → a.type = GapType.undefined_concept))
        ((sortGapsByPriority (createKnowledgeGaps regions concepts)).take maxGaps)
    ∧ ∀ g ∈ (sortGapsByPriority (createKnowledgeGaps regions concepts)).take maxGaps,
      (∃ reg ∈ regions, g = sparseRegionGap reg
        ∧ g.type = GapType.sparse_region
        ∧ g.severity = (if reg.density < 1 / 10 then GapSeverity.significant
            else if reg.density < 2 / 10 then GapSeverity.moderate
            else GapSeverity.minor))
      ∨ (∃ con ∈ concepts, g = undefinedConceptGap con
        ∧ g.type = GapType.undefined_concept
        ∧ g.severity = (if 10 ≤ con.mentionCount then GapSeverity.significant
            else if 5 ≤ con.mentionCount then GapSeverity.moderate
            else GapSeverity.minor)) := by
  refine ⟨?_, ?_, ?_⟩
  · rw [List.length_take]
    exact min_le_left _ _
  · have hs := @List.sorted_mergeSort KnowledgeGap
      (fun a b : KnowledgeGap => decide (gapCompare a b ≤ 0))
      (fun a b c hab hbc => by
        simp only [decide_eq_true_eq] at *
        exact gapCompareCore_trans a.severity a.type b.severity b.type
          c.severity c.type hab hbc)
      (fun a b => by
        simp only [Bool.or_eq_true, decide_eq_true_eq]
        exact gapCompareCore_total a.severity a.type b.severity b.type)
      (createKnowledgeGaps regions concepts)
    have hs' : List.Pairwise (fun a b : KnowledgeGap =>
        severityOrder b.severity ≤ severityOrder a.severity
        ∧ (severityOrder b.severity = severityOrder a.severity →
            b.type = GapType.undefined_concept → a.type = GapType.undefined_concept))
        (sortGapsByPriority (createKnowledgeGaps regions concepts)) := by
      rw [sortGapsByPriority]
      exact hs.imp (fun hab => by
        simp only [decide_eq_true_eq] at hab
        exact gapCompareCore_interp _ _ _ _ hab)
    exact List.Pairwise.sublist (List.take_sublist _ _) hs'
  · intro g hg
    have hg1 : g ∈ sortGapsByPriority (createKnowledgeGaps regions concepts) :=
      List.mem_of_mem_take hg
    rw [sortGapsByPriority] at hg1
    have hg2 := (List.mergeSort_perm _ _).mem_iff.mp hg1
    rw [createKnowledgeGaps] at hg2
    rcases List.mem_append.mp hg2 with hmem | hmem
    · obtain ⟨reg, hreg, rfl⟩ := List.mem_map.mp hmem
      exact Or.inl ⟨reg, hreg, rfl, rfl, rfl⟩
    · obtain ⟨con, hcon, rfl⟩ := List.mem_map.mp hmem
      exact Or.inr ⟨con, hcon, rfl, rfl, rfl⟩

/-- C9 (confirmed): in the report of a completed non-cancelled run, the
gap list holds at most `maxGaps` entries, is ordered by severity
descending with undefined-concept gaps before other types at equal
severity, and every gap comes from a sparse region with severity by the
density thresholds (significant below 0.10, moderate below 0.20) or from
an undefined concept with severity by the mention thresholds
(significant at 10, moderate at 5). -/
theorem C9_gap_report (sq : Rat → Rat) (rng : Nat → Rat)
    (er : EmbeddingReaderData) (lg : LinkGraphReaderData) (llm : LLMData)
    (prior : Bool) (opts : AnalyzeOptions) (r : GapReport)
    (h : er.isAvailable = true)
    (hr : analyzeGapsExecute sq rng er lg llm prior none opts = .ok r) :
    r.gaps.length ≤ opts.maxGaps.getD 50
    ∧ List.Pairwise (fun a b : KnowledgeGap =>
        severityOrder b.severity ≤ severityOrder a.severity
        ∧ (severityOrder b.severity = severityOrder a.severity →
            b.type = GapType.undefined_concept → a.type = GapType.undefined_concept))
        r.gaps
    ∧ ∀ g ∈ r.gaps,
      (∃ reg ∈ r.sparseRegions, g = sparseRegionGap reg
        ∧ g.type = GapType.sparse_region
        ∧ g.severity = (if reg.density < 1 / 10 then GapSeverity.significant
            else if reg.density < 2 / 10 then GapSeverity.moderate
            else GapSeverity.minor))
      ∨ (∃ con ∈ r.undefinedConcepts, g = undefinedConceptGap con
        ∧ g.type = GapType.undefined_concept
        ∧ g.severity = (if 10 ≤ con.mentionCount then GapSeverity.significant
            else if 5 ≤ con.mentionCount then GapSeverity.moderate
            else GapSeverity.minor)) := by
  rw [analyzeGapsExecute_none sq rng er lg llm prior opts h] at hr
  injection hr with hr
  subst hr
  have hgaps : (completedGapReport sq rng er lg llm opts).gaps
      = (sortGapsByPriority (createKnowledgeGaps
          (completedGapReport sq rng er lg llm opts).sparseRegions
          (completedGapReport sq rng er lg llm opts).undefinedConcepts)).take
          (opts.maxGaps.getD 50) := rfl
  rw [hgaps]
  exact sortGaps_facts _ _ _

def c9Concept : UndefinedConcept :=
  { name := "Foo"
    mentionCount := 3
    mentionedIn := ["A.md", "B.md"]
    relatedConcepts := []
    suggestedContent := none }

def c9Gap : KnowledgeGap :=
  { id := "undefined-foo"
    type := .undefined_concept
    title := "Foo"
    description := "\"Foo\" is mentioned 3 times but has no dedicated note."
    severity := .minor
    suggestedTopics := []
    relatedNotes := ["A.md", "B.md"]
    detectedAt := () }

def c9Report : GapReport :=
  { analyzedAt := ()
    totalNotesAnalyzed := 7
    totalEmbeddings := 7
    sparseRegions := []
    undefinedConcepts := [c9Concept]
    gaps := [c9Gap]
    options := w5Opts }

theorem c9_run : analyzeGapsExecute ratSqrt rngZero w5Er w5Lg w5Llm false none w5Opts
    = .ok c9Report := by
  rw [analyzeGapsExecute_none ratSqrt rngZero w5Er w5Lg w5Llm false w5Opts rfl]
  rw [completedGapReport]
  dsimp only
  rw [show detectSparseRegionsExecute ratSqrt rngZero w5Er.allEmbeddings
    { clusterCount := w5Opts.clusterCount
      sparsityThreshold := some (w5Opts.sparsityThreshold.getD (3 / 10))
      maxRegions := none
      excludeFolders := some (w5Opts.excludeFolders.getD []) } = [] from rfl]
  rw [show findUndefinedConceptsExecute w5Lg
    { minMentions := some (w5Opts.minMentions.getD 2)
      maxConcepts := none
      analyzeCoOccurrence := none
      excludeFolders := some (w5Opts.excludeFolders.getD []) }
    = [c9Concept] from ?_]
  · rw [if_neg (by simp [w5Llm])]
    simp only [createKnowledgeGaps, List.map_nil, List.map_cons, List.nil_append,
      sortGapsByPriority]
    simp [List.mergeSort, c9Report, c9Concept, c9Gap]
    refine ⟨rfl, ?_⟩
    decide
  · simp only [findUndefinedConceptsExecute, Option.getD_some, w5Lg]
    rw [show filterLinks [{ linkText := "Foo", sources := ["A.md", "B.md"], count := 3 }]
      (w5Opts.minMentions.getD 2) (w5Opts.excludeFolders.getD [])
      = [{ linkText := "Foo", sources := ["A.md", "B.md"], count := 3 }] from by decide]
    simp [List.mergeSort]
    decide


/-- C9 (witness): the theorem applied to a concrete completed run whose
report holds exactly one minor undefined-concept gap. -/
theorem C9_gap_report_witness :
    (w5Er.isAvailable = true
      ∧ analyzeGapsExecute ratSqrt rngZero w5Er w5Lg w5Llm false none w5Opts
        = .ok c9Report)
    ∧ c9Report.gaps.length ≤ w5Opts.maxGaps.getD 50 :=
  ⟨⟨rfl, c9_run⟩,
   (C9_gap_report ratSqrt rngZero w5Er w5Lg w5Llm false w5Opts c9Report rfl
     c9_run).1⟩


end KnowledgeGapDetector
